import Mathlib

/-! # sawUniversalRobot: the real-time script driver and its console client

A shallow embedding of `mtsUniversalRobotScriptRT` (the declarations of
`components/include/sawUniversalRobot/mtsUniversalRobotScriptRT.h`) and of the
client task of `examples/ConsoleTest/main.cpp` (`Startup` and `Run`).

C enumerations become inductive types together with the integer code the
compiler assigns to every enumerator; `const` accessors with an output
reference become functions returning the (unchanged) object and the value
written to the reference. The methods the header only declares (`Run` and the
command methods) are state-passing functions on a `Driver` record, written after
the specification of the driver; each of them says so in its comment.
-/

namespace mtsUniversalRobotScriptRT

/-! ## Enumerations of the header -/

/-- The driver motion states, `enum UR_STATES`. -/
inductive UR_STATES
  | UR_NOT_CONNECTED
  | UR_IDLE
  | UR_POS_MOVING
  | UR_VEL_MOVING
  | UR_FREE_DRIVE
  | UR_POWERING_OFF
  | UR_POWERING_ON
  deriving DecidableEq, Repr, Fintype

/-- The overall robot modes reported by the controller, `enum RobotModes`. -/
inductive RobotModes
  | ROBOT_MODE_DISCONNECTED
  | ROBOT_MODE_CONFIRM_SAFETY
  | ROBOT_MODE_BOOTING
  | ROBOT_MODE_POWER_OFF
  | ROBOT_MODE_POWER_ON
  | ROBOT_MODE_IDLE
  | ROBOT_MODE_BACKDRIVE
  | ROBOT_MODE_RUNNING
  | ROBOT_MODE_UPDATING_FIRMWARE
  deriving DecidableEq, Repr, Fintype

/-- Integer value of a `RobotModes` enumerator: no initialiser is given, so the
enumerators count up from zero in declaration order. -/
def RobotModes.toInt : RobotModes → Int
  | ROBOT_MODE_DISCONNECTED => 0
  | ROBOT_MODE_CONFIRM_SAFETY => 1
  | ROBOT_MODE_BOOTING => 2
  | ROBOT_MODE_POWER_OFF => 3
  | ROBOT_MODE_POWER_ON => 4
  | ROBOT_MODE_IDLE => 5
  | ROBOT_MODE_BACKDRIVE => 6
  | ROBOT_MODE_RUNNING => 7
  | ROBOT_MODE_UPDATING_FIRMWARE => 8

/-- The per-joint modes, `enum JointModes`. -/
inductive JointModes
  | JOINT_SHUTTING_DOWN_MODE
  | JOINT_PART_D_CALIBRATION_MODE
  | JOINT_BACKDRIVE_MODE
  | JOINT_POWER_OFF_MODE
  | JOINT_NOT_RESPONDING_MODE
  | JOINT_MOTOR_INITIALISATION_MODE
  | JOINT_BOOTING_MODE
  | JOINT_PART_D_CALIBRATION_ERROR_MODE
  | JOINT_BOOTLOADER_MODE
  | JOINT_CALIBRATION_MODE
  | JOINT_FAULT_MODE
  | JOINT_RUNNING_MODE
  | JOINT_IDLE_MODE
  deriving DecidableEq, Repr, Fintype

/-- Integer value of a `JointModes` enumerator: the first one is initialised
to 236 and every later one is its predecessor plus one. -/
def JointModes.toInt : JointModes → Int
  | JOINT_SHUTTING_DOWN_MODE => 236
  | JOINT_PART_D_CALIBRATION_MODE => 237
  | JOINT_BACKDRIVE_MODE => 238
  | JOINT_POWER_OFF_MODE => 239
  | JOINT_NOT_RESPONDING_MODE => 240
  | JOINT_MOTOR_INITIALISATION_MODE => 241
  | JOINT_BOOTING_MODE => 242
  | JOINT_PART_D_CALIBRATION_ERROR_MODE => 243
  | JOINT_BOOTLOADER_MODE => 244
  | JOINT_CALIBRATION_MODE => 245
  | JOINT_FAULT_MODE => 246
  | JOINT_RUNNING_MODE => 247
  | JOINT_IDLE_MODE => 248

/-- The firmware versions, `enum FirmwareVersion`; `VER_MAX` is the last
enumerator and dimensions the per-version tables. -/
inductive FirmwareVersion
  | VER_UNKNOWN
  | VER_PRE_18
  | VER_18
  | VER_30_31
  | VER_32
  | VER_MAX
  deriving DecidableEq, Repr, Fintype

/-- Integer value of a `FirmwareVersion` enumerator (declaration order from
zero); this is what `static_cast<int>(version)` yields. -/
def FirmwareVersion.toInt : FirmwareVersion → Int
  | VER_UNKNOWN => 0
  | VER_PRE_18 => 1
  | VER_18 => 2
  | VER_30_31 => 3
  | VER_32 => 4
  | VER_MAX => 5

/-! ## The receive buffer -/

/-- Number of bytes of the receive buffer, `char buffer[1500]`. -/
def bufferCapacity : Nat := 1500

/-- The minimum packet length named by the buffer comment (764 bytes). -/
def minPacketLength : Nat := 764

/-- The largest packet length named by the buffer comment (1295 bytes, seen on
port 30001). -/
def maxPacketLength : Nat := 1295

/-! ## Data members read by the inline accessors -/

/-- The two data members the inline accessors of the header read. -/
structure Members where
  UR_State : UR_STATES
  version : FirmwareVersion
  deriving DecidableEq, Repr

/-- `void GetConnected(bool &conn) const`: writes `UR_State != UR_NOT_CONNECTED`
to `conn`; the method is `const`, the object comes back as it went in. -/
def GetConnected (self : Members) : Members × Bool :=
  (self, self.UR_State != UR_STATES.UR_NOT_CONNECTED)

/-- `void GetVersion(int &ver) const`: writes `static_cast<int>(version)` to
`ver`. -/
def GetVersion (self : Members) : Members × Int :=
  (self, self.version.toInt)

/-- Number of entries of the per-version tables `PacketLength[VER_MAX]` and
`PacketCount[VER_MAX]`. -/
def perVersionTableSize : Nat := FirmwareVersion.VER_MAX.toInt.toNat

end mtsUniversalRobotScriptRT

/-! ## The console client (`ConsoleTest/main.cpp`) -/

namespace UniversalRobotClient

/-- The name table of `Run`, `const char *versionString[]`. -/
def versionString : List String := ["Unknown", "Pre-1.8", "1.8", "3.0/3.1", "3.2"]

/-- Width in bits of `size_t`, the type of `sizeof`. -/
def sizeBits : Nat := 64

/-- The conversion of an `int` to `size_t` that the comparison
`version >= sizeof(versionString)/sizeof(versionString[0])` performs on its
left operand: reduction modulo `2 ^ sizeBits`. -/
def toSizeT (v : Int) : Nat := (v % (2 : Int) ^ sizeBits).toNat

/-- What `case 'x'` prints. -/
inductive VersionOutput
  /-- The line "Firmware version, invalid response = " followed by the value. -/
  | invalidResponse (version : Int)
  /-- The line "Firmware version: " followed by `versionString[index]`. -/
  | versionName (index : Int)
  deriving DecidableEq, Repr

/-- The branch of `case 'x'` after `GetVersion(version)`. -/
def showVersion (version : Int) : VersionOutput :=
  if version < 0 ∨ toSizeT version ≥ versionString.length then
    VersionOutput.invalidResponse version
  else
    VersionOutput.versionName version

/-- The element an index selects in `versionString`; `none` stands for an access
outside the array. -/
def versionStringAt (index : Int) : Option String :=
  if index < 0 then none else versionString.get? index.toNat

/-! ### The client task (`UniversalRobotClient` of `ConsoleTest/main.cpp`)

Numbers are rationals: the rounding of `double` is not modelled. The constants
of the cisst library, the values the driver returns, what the uninitialised
locals of `Run` hold and what each extraction from `std::cin` does are inputs. -/

/-- The range of the C type `int`, the type of the local `version`. -/
def INT_MIN : Int := -2147483648

/-- The largest value of the C type `int`. -/
def INT_MAX : Int := 2147483647

/-- The lines `Startup` prints: the menu, one line per key, and the prompt. -/
def Startup : List String :=
  ["m: position move joints",
   "M: position move cartesian",
   "v: velocity move joints",
   "V: velocity move cartesian",
   "d: toggle debug data display",
   "s: stop motion",
   "x: get version",
   "f: free drive mode",
   "r: running mode",
   "q: quit",
   "n: shut down robot",
   "Select Option: "]

/-- The key a line of the menu documents: the character in front of ": ". -/
def menuKey (line : String) : Option Char :=
  match line.toList with
  | c :: ':' :: ' ' :: _ :: _ => some c
  | _ => none

/-- The keys the start-up menu documents, in the order of the menu. -/
def menuKeys : List Char := Startup.filterMap menuKey

/-- What `Run` finds on entry without computing it: the conversion factors
`cmnPI_180` and `cmn180_PI` of `cmnConstants.h`, a header of the cisst library,
and the elements of its four `vct3` locals, which are declared without an
initial value. -/
structure Constants where
  cmnPI_180 : Rat
  cmn180_PI : Rat
  velxyz : List Rat
  velrot : List Rat
  cartPos : List Rat
  cartVec : List Rat
  deriving DecidableEq, Repr

/-- What one extraction `std::cin >> x` does to `x`; the C++ library decides it
from the characters waiting and the state of the stream. A stream that has
failed or reached its end goes on with `untouched`. -/
inductive Extraction
  /-- A value is stored in `x`: the number read, or whatever the library stores
  when the characters are not a number. -/
  | stored (value : Rat)
  /-- The variable `x` is left as it was: the stream has failed or is at its
  end. -/
  | untouched
  deriving DecidableEq, Repr

/-- A rotation (`vctDoubleRot3`): either one read from the driver or the one
`From` builds out of a Rodriguez vector. -/
inductive Rotation
  | matrix (entries : List Rat)
  | fromRodriguez (cartVec : List Rat)
  deriving DecidableEq, Repr

/-- A Cartesian position: translation and rotation. -/
structure Frame where
  translation : List Rat
  rotation : Rotation
  deriving DecidableEq, Repr

/-- The functions of the required interface "Input", as the client calls them. -/
inductive Call
  | GetDebug
  | GetControllerTime
  | GetControllerExecTime
  | GetPositionJoint
  | GetPositionCartesian
  | GetConnected
  | GetAveragePeriod
  | GetVersion
  | PositionMoveJoint (jtposSet : List Rat)
  | PositionMoveCartesian (cartposSet : Frame)
  | VelocityMoveJoint (jtvelSet : List Rat)
  | VelocityMoveCartesian (translation rotation : List Rat)
  | SetRobotFreeDriveMode
  | SetRobotRunningMode
  | StopMotion
  | DisableMotorPower
  deriving DecidableEq, Repr

/-- Whether a function of the interface is a command (`mtsFunctionWrite` or
`mtsFunctionVoid`) and not a read (`mtsFunctionRead`). -/
def Call.isCommand : Call → Bool
  | Call.PositionMoveJoint _ => true
  | Call.PositionMoveCartesian _ => true
  | Call.VelocityMoveJoint _ => true
  | Call.VelocityMoveCartesian _ _ => true
  | Call.SetRobotFreeDriveMode => true
  | Call.SetRobotRunningMode => true
  | Call.StopMotion => true
  | Call.DisableMotorPower => true
  | _ => false

/-- An event of the driver waiting in the queue of the client. -/
inductive QueuedEvent
  | SocketError
  | RobotNotReady
  | ReceiveTimeout
  | PacketInvalid (numBytes packageLength : Nat)
  deriving DecidableEq, Repr

/-- What the client writes to the standard output. -/
inductive Output
  /-- The message of the handler of a queued event. -/
  | event (e : QueuedEvent)
  /-- A request for numbers, such as "Enter joint positions (deg): ". -/
  | prompt (text : String)
  /-- The line "Exiting.. ". -/
  | exiting
  /-- The firmware version line of `case 'x'`. -/
  | version (line : VersionOutput)
  /-- The status line "DEBUG: [...]". -/
  | debugLine (debug : List Rat)
  /-- The status line "JOINTS (deg): [...], PERIOD (s): ...". -/
  | jointsLine (jtposDeg : List Rat) (period : Rat)
  deriving DecidableEq, Repr

/-- What the driver and the event queue hand to one call of `Run`: the queued
events and the values the read functions return. -/
structure Readings where
  queuedEvents : List QueuedEvent
  debug : List Rat
  cTime : Rat
  cExecTime : Rat
  jtpos : List Rat
  cartpos : Frame
  connected : Bool
  period : Rat
  version : Int
  deriving DecidableEq, Repr

/-- The data members of `UniversalRobotClient`, and whether `Kill` was called.
The constructor gives `jtpos`, `jtgoal`, `jtvel` and the two joint goals six
elements. -/
structure Client where
  jtpos : List Rat
  cartpos : Frame
  jtgoal : List Rat
  jtvel : List Rat
  jtposSet : List Rat
  cartposSet : Frame
  jtvelSet : List Rat
  cartVelSet : List Rat × List Rat
  debugMode : Bool
  killed : Bool
  deriving DecidableEq, Repr

/-- The surroundings of the client: the keys waiting at the keyboard
(`cmnKbHit`, `cmnGetChar`), what the extractions from `std::cin` to come will
do, in order, what was written to `std::cout` and the calls made through the
interface, oldest first. -/
structure Console where
  keyboard : List Char
  cin : List Extraction
  cout : List Output
  calls : List Call
  deriving DecidableEq, Repr

/-- One extraction `std::cin >> x`, given the present value of `x`: the new
value of `x` and what is left of the stream. A stream with nothing left is at
its end and leaves `x` as it was. -/
def extractOne (x : Rat) : List Extraction → Rat × List Extraction
  | Extraction.stored value :: rest => (value, rest)
  | Extraction.untouched :: rest => (x, rest)
  | [] => (x, [])

/-- The chain `std::cin >> v[0] >> v[1] >> ...` over the elements of a vector,
given their present values. -/
def extractAll : List Rat → List Extraction → List Rat × List Extraction
  | [], cin => ([], cin)
  | x :: xs, cin =>
    ((extractOne x cin).1 :: (extractAll xs (extractOne x cin).2).1,
      (extractAll xs (extractOne x cin).2).2)

/-- The chain of extractions into every element of the vector `v`, on the
console. -/
def extract (v : List Rat) (w : Console) : List Rat × Console :=
  ((extractAll v w.cin).1, { w with cin := (extractAll v w.cin).2 })

/-- Writing to `std::cout`. -/
def print (o : Output) (w : Console) : Console :=
  { w with cout := w.cout ++ [o] }

/-- A call through the required interface. -/
def call (f : Call) (w : Console) : Console :=
  { w with calls := w.calls ++ [f] }

/-- The reads every call of `Run` starts with, in order. -/
def cycleReads : List Call :=
  [Call.GetDebug, Call.GetControllerTime, Call.GetControllerExecTime, Call.GetPositionJoint,
   Call.GetPositionCartesian, Call.GetConnected, Call.GetAveragePeriod]

/-- The `switch (c)` of `Run`, case by case in the order of the source; a
character without a case falls through the switch. The numbers are extracted
into the elements of `jtgoal` and `jtvel`, which are members and keep a value no
extraction stores, and into the elements of the locals. -/
def onKey (k : Constants) (r : Readings) (c : Char) (self : Client) (w : Console) :
    Client × Console :=
  if c = 'm' then
    let w1 := extract self.jtgoal (print (Output.prompt "Enter joint positions (deg): ") w)
    let jtgoal := w1.1.map (fun x => x * k.cmnPI_180)
    ({ self with jtgoal := jtgoal, jtposSet := jtgoal },
      call (Call.PositionMoveJoint jtgoal) w1.2)
  else if c = 'M' then
    let w1 := extract k.cartPos (print (Output.prompt "Enter Cartesian positions (mm): ") w)
    let cartPos := w1.1.map (fun x => x / 1000)
    let w2 := extract k.cartVec
      (print (Output.prompt "Enter Cartesian orientation (Rodriguez; 0,0,0 to skip): ") w1.2)
    let cartVec := w2.1
    let cartRot :=
      if cartVec.any (fun x => x != 0) then Rotation.fromRodriguez cartVec
      else self.cartpos.rotation
    let cartposSet : Frame := { translation := cartPos, rotation := cartRot }
    ({ self with cartposSet := cartposSet }, call (Call.PositionMoveCartesian cartposSet) w2.2)
  else if c = 'v' then
    let w1 := extract self.jtvel (print (Output.prompt "Enter joint velocities (deg/sec): ") w)
    let jtvel := w1.1.map (fun x => x * k.cmnPI_180)
    ({ self with jtvel := jtvel, jtvelSet := jtvel }, call (Call.VelocityMoveJoint jtvel) w1.2)
  else if c = 'V' then
    let w1 := extract k.velxyz
      (print (Output.prompt "Enter Cartesian XYZ velocities (mm/sec): ") w)
    let velxyz := w1.1.map (fun x => x / 1000)
    let w2 := extract k.velrot
      (print (Output.prompt "Enter Cartesian angular velocities (deg/sec): ") w1.2)
    let velrot := w2.1.map (fun x => x * k.cmnPI_180)
    ({ self with cartVelSet := (velxyz, velrot) },
      call (Call.VelocityMoveCartesian velxyz velrot) w2.2)
  else if c = 'q' then
    ({ self with killed := true }, print Output.exiting w)
  else if c = 'd' then
    ({ self with debugMode := !self.debugMode }, w)
  else if c = 's' then
    (self, call Call.StopMotion w)
  else if c = 'x' then
    (self, print (Output.version (showVersion r.version)) (call Call.GetVersion w))
  else if c = 'f' then
    (self, call Call.SetRobotFreeDriveMode w)
  else if c = 'r' then
    (self, call Call.SetRobotRunningMode w)
  else if c = 'n' then
    (self, call Call.DisableMotorPower w)
  else
    (self, w)

/-- The block `if (cmnKbHit()) { char c = cmnGetChar(); switch (c) ... }`. -/
def keyboardStage (k : Constants) (r : Readings) (self : Client) (w : Console) :
    Client × Console :=
  match w.keyboard with
  | [] => (self, w)
  | c :: rest => onKey k r c self { w with keyboard := rest }

/-- The status line at the end of the connected branch. -/
def statusLine (k : Constants) (r : Readings) (self : Client) : Output :=
  if self.debugMode then Output.debugLine r.debug
  else Output.jointsLine (self.jtpos.map (fun x => x * k.cmn180_PI)) r.period

/-- The state of client and console after the reads at the head of `Run`:
`ProcessQueuedEvents()` runs the handlers, which print, and the seven read
functions are called; `jtpos` and `cartpos` are members and take the values
read. -/
def readStage (r : Readings) (self : Client) (w : Console) : Client × Console :=
  ({ self with jtpos := r.jtpos, cartpos := r.cartpos },
   { w with
     cout := w.cout ++ r.queuedEvents.map Output.event
     calls := w.calls ++ cycleReads })

/-- One call of `UniversalRobotClient::Run`. -/
def Run (k : Constants) (r : Readings) (self : Client) (w : Console) : Client × Console :=
  let start := readStage r self w
  if r.connected then
    let after := keyboardStage k r start.1 start.2
    (after.1, print (statusLine k r after.1) after.2)
  else
    start

/-- A sample of the inputs of `Run`, used to instantiate the theorems: the
conversion factors with 355/113 for pi, locals that happen to hold 7, 8 and 9, a
driver at rest that reports firmware 3.2, and a client that has not moved
yet. -/
def sampleConstants : Constants where
  cmnPI_180 := 355 / 20340
  cmn180_PI := 20340 / 355
  velxyz := [7, 8, 9]
  velrot := [7, 8, 9]
  cartPos := [7, 8, 9]
  cartVec := [7, 8, 9]

/-- The readings of the sample: connected, firmware code 4. -/
def sampleReadings : Readings where
  queuedEvents := []
  debug := [0, 0, 0, 0, 0, 0]
  cTime := 0
  cExecTime := 0
  jtpos := [0, 0, 0, 0, 0, 0]
  cartpos := { translation := [0, 0, 0], rotation := Rotation.matrix [1, 0, 0, 0, 1, 0, 0, 0, 1] }
  connected := true
  period := 0
  version := 4

/-- The client of the sample, as constructed: `debugMode` false. -/
def sampleClient : Client where
  jtpos := [0, 0, 0, 0, 0, 0]
  cartpos := { translation := [0, 0, 0], rotation := Rotation.matrix [1, 0, 0, 0, 1, 0, 0, 0, 1] }
  jtgoal := [0, 0, 0, 0, 0, 0]
  jtvel := [0, 0, 0, 0, 0, 0]
  jtposSet := [0, 0, 0, 0, 0, 0]
  cartposSet := { translation := [0, 0, 0], rotation := Rotation.matrix [] }
  jtvelSet := [0, 0, 0, 0, 0, 0]
  cartVelSet := ([0, 0, 0], [0, 0, 0])
  debugMode := false
  killed := false

/-- A console with the given keys waiting and nothing else. -/
def sampleConsole (keys : List Char) : Console :=
  { keyboard := keys, cin := [], cout := [], calls := [] }

end UniversalRobotClient

namespace mtsUniversalRobotScriptRT

open UR_STATES RobotModes JointModes FirmwareVersion

/-! ## The driver core

The implementation file of the component (`mtsUniversalRobotScriptRT.cpp`: the
table `PacketLength`, `Run` and the command methods) is not among the sources.
The definitions of this section follow the specification (sections 3, 4.2, 4.3
and 4.4) and keep the names the header declares; everything the specification
leaves to the implementation is a field of `Settings`. The transport (connect,
read, reconnect) is not part of the model: a cycle is given the packet framed in
it, if any. -/

/-- Modelled from the spec: one command line written to the socket, by kind
(section 4.4 and the write side of section 6; the formatting code is absent).
Numbers are integers in the unit of the last printed decimal. -/
inductive Command
  | positionJoint (target : List Int)
  | positionCartesian (pose : List Int)
  | velocityJoint (target : List Int)
  | velocityCartesian (target : List Int)
  | stop
  | zeroVelocityStop
  | freeDrive
  | running
  | powerOff
  deriving DecidableEq, Repr

/-- Modelled from the spec: whether a command line is a stop command, either
the one of `stop_motion` or the zero-velocity stop of an expired velocity
command (`VelCmdStop`). -/
def Command.isStop : Command → Bool
  | Command.stop => true
  | Command.zeroVelocityStop => true
  | _ => false

/-- Modelled from the spec: `PendingVelocityCommand` of section 3, "the
last-issued velocity command string, an issue timestamp, and a timeout"; the
header keeps the string and the timeout in `VelCmdString` and `VelCmdTimeout`. -/
structure PendingVelocityCommand where
  VelCmdString : Command
  issued : Nat
  VelCmdTimeout : Nat
  deriving DecidableEq, Repr

/-- Modelled from the spec: the command outstanding at the dispatcher, the last
motion command issued that is still in effect (sections 3 and 4.3). -/
inductive Outstanding
  | none
  | positionMove
  | velocity (pending : PendingVelocityCommand)
  deriving DecidableEq, Repr

/-- Modelled from the spec: the four events of section 4.5; the header declares
the generators `SocketError`, `RobotNotReady`, `ReceiveTimeout` and
`PacketInvalid`. -/
inductive Event
  | SocketError
  | ReceiveTimeout
  | PacketInvalid (observed expected : Nat)
  | RobotNotReady
  deriving DecidableEq, Repr

/-- Modelled from the spec: what the specification leaves to the absent
implementation file. -/
structure Settings where
  /-- Packet length of the 1.8 schema. -/
  len18 : Nat
  /-- Packet length of the 3.0/3.1 schema. -/
  len3031 : Nat
  /-- Packet length of the 3.2 schema. -/
  len32 : Nat
  /-- How many consecutive packets of another known length re-bind the version
  ("several consecutive matches of a different length", section 4.2). -/
  several : Nat
  /-- The keep-alive window of a velocity command, in clock ticks ("fixed short
  duration", section 4.4). -/
  keepAlive : Nat
  /-- The numeric range check of a request value (section 4.4). -/
  inRange : Int → Bool
  /-- The driver state for the combinations of robot mode and outstanding
  command that section 4.3 does not fix ("as appropriate"). -/
  asAppropriate : RobotModes → Outstanding → UR_STATES

/-- Modelled from the spec: the static table `PacketLength[VER_MAX]`, declared
in the header and initialised in the absent implementation file. 764 bytes is
the minimum packet length of the header's buffer comment and the smallest
schema of section 4.2 step 1, that of the oldest firmware. The lengths of the
three later schemas are settings: the initialiser that fixes them is not
available. `VER_UNKNOWN` has no schema and `VER_MAX` is not an index; the value
0 there is never compared with a packet. -/
def PacketLength (cfg : Settings) : FirmwareVersion → Nat
  | VER_UNKNOWN => 0
  | VER_PRE_18 => 764
  | VER_18 => cfg.len18
  | VER_30_31 => cfg.len3031
  | VER_32 => cfg.len32
  | VER_MAX => 0

/-- Modelled from the spec: the versions that have a packet schema. -/
def knownVersions : List FirmwareVersion := [VER_PRE_18, VER_18, VER_30_31, VER_32]

/-- Modelled from the spec: the known version whose schema has the declared
length, if any (section 4.2 step 2). -/
def matchVersion (cfg : Settings) (len : Nat) : Option FirmwareVersion :=
  knownVersions.find? (fun v => PacketLength cfg v == len)

/-- Modelled from the spec: the state of the driver. `UR_State` and `version`
are the members of the header, `PacketCount` is its per-version counter array;
`robot_mode` is the robot mode of the latest `ControllerStatus` snapshot,
`outstanding` the dispatcher state, `sent` the lines written to the socket and
`events` the events raised, both oldest first. -/
structure Driver extends Members where
  PacketCount : FirmwareVersion → Nat
  robot_mode : RobotModes
  outstanding : Outstanding
  sent : List Command
  events : List Event

/-- Modelled from the spec: a complete packet as framed from the buffer, its
declared length and the robot mode its payload carries. -/
structure Packet where
  length : Nat
  robot_mode : RobotModes
  deriving DecidableEq, Repr

/-- Modelled from the spec: section 4.2 steps 2 and 3 on the declared length of
one packet. A length equal to the bound version's ends every run of another
length. Otherwise the packet does not match the bound version: without a bound
version the first known length binds it; with one, a known other length extends
its run of consecutive matches (and ends the runs of the rest) and re-binds the
version once the run reaches `several`, and every packet short of that, as well
as every packet of no known length, is reported as `PacketInvalid`. -/
def bindVersion (cfg : Settings) (d : Driver) (len : Nat) : Driver :=
  if d.version ≠ VER_UNKNOWN ∧ len = PacketLength cfg d.version then
    { d with PacketCount := fun _ => 0 }
  else
    match matchVersion cfg len with
    | Option.none =>
      { d with
        PacketCount := fun _ => 0
        events := d.events ++ [Event.PacketInvalid len (PacketLength cfg d.version)] }
    | some v =>
      if d.version = VER_UNKNOWN then
        { d with version := v, PacketCount := fun _ => 0 }
      else if cfg.several ≤ d.PacketCount v + 1 then
        { d with version := v, PacketCount := fun _ => 0 }
      else
        { d with
          PacketCount := fun w => if w = v then d.PacketCount v + 1 else 0
          events := d.events ++ [Event.PacketInvalid len (PacketLength cfg d.version)] }

/-- Modelled from the spec: section 4.2 steps 2 to 4 on one packet: the version
binding, then the decoding of the status under the bound schema when the packet
has that schema's length. -/
def decodePacket (cfg : Settings) (d : Driver) (p : Packet) : Driver :=
  let d1 := bindVersion cfg d p.length
  if d1.version ≠ VER_UNKNOWN ∧ p.length = PacketLength cfg d1.version then
    { d1 with robot_mode := p.robot_mode }
  else
    d1

/-- Modelled from the spec: the derivation of section 4.3. Backdrive gives
FreeDrive; PowerOn or Idle with no outstanding move gives Idle; Running gives
PositionMoving with a position move outstanding and VelocityMoving with a
velocity command outstanding; the rest is "as appropriate". -/
def deriveState (cfg : Settings) : RobotModes → Outstanding → UR_STATES
  | ROBOT_MODE_BACKDRIVE, _ => UR_FREE_DRIVE
  | ROBOT_MODE_POWER_ON, Outstanding.none => UR_IDLE
  | ROBOT_MODE_IDLE, Outstanding.none => UR_IDLE
  | ROBOT_MODE_RUNNING, Outstanding.positionMove => UR_POS_MOVING
  | ROBOT_MODE_RUNNING, Outstanding.velocity _ => UR_VEL_MOVING
  | mode, out => cfg.asAppropriate mode out

/-- Modelled from the spec: the "update model" stage of the cycle, which
recomputes the driver state from the current status and dispatcher state. -/
def updateState (cfg : Settings) (d : Driver) : Driver :=
  { d with UR_State := deriveState cfg d.robot_mode d.outstanding }

/-- Modelled from the spec: what a write operation reports to its caller;
only a request-validation failure is propagated (section 7). -/
inductive Reply
  | done
  | InvalidRequest
  deriving DecidableEq, Repr

/-- Modelled from the spec: the validation of section 4.4, dimensionality (six
values: the joints, or three linear and three angular components) and the
numeric range of every value. -/
def validTarget (cfg : Settings) (target : List Int) : Bool :=
  target.length == 6 && target.all cfg.inRange

/-- Modelled from the spec: the event generator `RobotNotReady` of the header;
the event is appended to the events raised. -/
def RobotNotReady (d : Driver) : Driver :=
  { d with events := d.events ++ [Event.RobotNotReady] }

/-- Modelled from the spec: whether a one-shot position move is admitted, which
section 4.4 allows in the driver states Idle and PositionMoving only. -/
def readyForPositionMove (d : Driver) : Bool :=
  d.UR_State == UR_IDLE || d.UR_State == UR_POS_MOVING

/-- Modelled from the spec: `move_joint_position` (section 4.4), declared as
`JointPositionMove`. Outside Idle and PositionMoving the request is rejected
with the `RobotNotReady` event; a malformed request fails with `InvalidRequest`
without touching the socket; otherwise the move is written to the socket and
becomes the outstanding command. -/
def JointPositionMove (cfg : Settings) (d : Driver) (jtpos : List Int) : Driver × Reply :=
  if readyForPositionMove d then
    if validTarget cfg jtpos then
      ({ d with
          sent := d.sent ++ [Command.positionJoint jtpos]
          outstanding := Outstanding.positionMove }, Reply.done)
    else
      (d, Reply.InvalidRequest)
  else
    (RobotNotReady d, Reply.done)

/-- Modelled from the spec: `move_cartesian_position` (section 4.4), declared as
`CartesianPositionMove`; the pose is three position and three orientation
values. Same rules as `JointPositionMove`. -/
def CartesianPositionMove (cfg : Settings) (d : Driver) (cartPos : List Int) :
    Driver × Reply :=
  if readyForPositionMove d then
    if validTarget cfg cartPos then
      ({ d with
          sent := d.sent ++ [Command.positionCartesian cartPos]
          outstanding := Outstanding.positionMove }, Reply.done)
    else
      (d, Reply.InvalidRequest)
  else
    (RobotNotReady d, Reply.done)

/-- Modelled from the spec: the common part of the two velocity operations of
section 4.4: the command is written to the socket and becomes the pending
velocity command, stamped with the present time and armed with the keep-alive
window; a call while one is pending replaces it, which refreshes the timeout. -/
def issueVelocity (cfg : Settings) (now : Nat) (d : Driver) (cmd : Command) : Driver :=
  { d with
    sent := d.sent ++ [cmd]
    outstanding := Outstanding.velocity
      { VelCmdString := cmd, issued := now, VelCmdTimeout := cfg.keepAlive } }

/-- Modelled from the spec: whether a velocity command is admitted. Section 7
rejects a motion requested while the controller is not in a movable mode with
`RobotNotReady`; for a velocity command the movable driver states are Idle and,
since "every call to these operations while already moving refreshes the
timeout" (section 4.4), VelocityMoving, as Idle and PositionMoving are for a
position move. -/
def readyForVelocityMove (d : Driver) : Bool :=
  d.UR_State == UR_IDLE || d.UR_State == UR_VEL_MOVING

/-- Modelled from the spec: `move_joint_velocity` (sections 4.4 and 7), declared
as `JointVelocityMove`. Outside Idle and VelocityMoving the request is rejected
with the `RobotNotReady` event; a malformed request fails with `InvalidRequest`
without touching the socket; otherwise the velocity command is issued. -/
def JointVelocityMove (cfg : Settings) (now : Nat) (d : Driver) (jtvel : List Int) :
    Driver × Reply :=
  if readyForVelocityMove d then
    if validTarget cfg jtvel then
      (issueVelocity cfg now d (Command.velocityJoint jtvel), Reply.done)
    else
      (d, Reply.InvalidRequest)
  else
    (RobotNotReady d, Reply.done)

/-- Modelled from the spec: `move_cartesian_velocity` (sections 4.4 and 7),
declared as `CartesianVelocityMove`. Same rules as `JointVelocityMove`. -/
def CartesianVelocityMove (cfg : Settings) (now : Nat) (d : Driver) (cartVel : List Int) :
    Driver × Reply :=
  if readyForVelocityMove d then
    if validTarget cfg cartVel then
      (issueVelocity cfg now d (Command.velocityCartesian cartVel), Reply.done)
    else
      (d, Reply.InvalidRequest)
  else
    (RobotNotReady d, Reply.done)

/-- Modelled from the spec: `stop_motion` (section 4.4), declared as
`StopMotion`: the stop command is sent unconditionally and no motion command
stays outstanding, which cancels a pending velocity timeout. -/
def StopMotion (d : Driver) : Driver :=
  { d with sent := d.sent ++ [Command.stop], outstanding := Outstanding.none }

/-- Modelled from the spec: `set_free_drive_mode` (section 4.4), sent
unconditionally. -/
def SetRobotFreeDriveMode (d : Driver) : Driver :=
  { d with sent := d.sent ++ [Command.freeDrive] }

/-- Modelled from the spec: `set_running_mode` (section 4.4), sent
unconditionally. -/
def SetRobotRunningMode (d : Driver) : Driver :=
  { d with sent := d.sent ++ [Command.running] }

/-- Modelled from the spec: `disable_motor_power` (section 4.4), sent
unconditionally. -/
def DisableMotorPower (d : Driver) : Driver :=
  { d with sent := d.sent ++ [Command.powerOff] }

/-- Modelled from the spec: a request waiting in the queue that a cycle drains
(section 5), one constructor per write operation of section 6. -/
inductive Request
  | move_joint_position (target : List Int)
  | move_cartesian_position (pose : List Int)
  | move_joint_velocity (target : List Int)
  | move_cartesian_velocity (target : List Int)
  | stop_motion
  | set_free_drive_mode
  | set_running_mode
  | disable_motor_power
  deriving DecidableEq, Repr

/-- Modelled from the spec: the "service pending command" stage of the cycle on
one request. -/
def service (cfg : Settings) (now : Nat) (d : Driver) : Request → Driver
  | Request.move_joint_position target => (JointPositionMove cfg d target).1
  | Request.move_cartesian_position pose => (CartesianPositionMove cfg d pose).1
  | Request.move_joint_velocity target => (JointVelocityMove cfg now d target).1
  | Request.move_cartesian_velocity target => (CartesianVelocityMove cfg now d target).1
  | Request.stop_motion => StopMotion d
  | Request.set_free_drive_mode => SetRobotFreeDriveMode d
  | Request.set_running_mode => SetRobotRunningMode d
  | Request.disable_motor_power => DisableMotorPower d

/-- Modelled from the spec: the "expire stale velocity commands" stage of the
cycle: a pending velocity command whose window has elapsed is answered with one
zero-velocity stop and cleared (sections 3 and 4.4). -/
def expire (now : Nat) (d : Driver) : Driver :=
  match d.outstanding with
  | Outstanding.velocity pending =>
    if pending.issued + pending.VelCmdTimeout ≤ now then
      { d with sent := d.sent ++ [Command.zeroVelocityStop], outstanding := Outstanding.none }
    else
      d
  | _ => d

/-- Modelled from the spec: what one cycle is given: the clock, the packet
framed from the bytes read in it (if one is complete) and the requests queued
since the cycle before. -/
structure CycleInput where
  now : Nat
  packet : Option Packet
  requests : List Request
  deriving DecidableEq, Repr

/-- Modelled from the spec: the "decode" stage of the cycle: the packet framed
in this cycle, if there is one, is decoded. -/
def decodeStage (cfg : Settings) (d : Driver) : Option Packet → Driver
  | some p => decodePacket cfg d p
  | Option.none => d

/-- Modelled from the spec: one cycle of the control loop after the read
(section 2): decode, update the model, service the pending commands, expire a
stale velocity command. -/
def run_cycle (cfg : Settings) (d : Driver) (inp : CycleInput) : Driver :=
  expire inp.now
    (inp.requests.foldl (service cfg inp.now) (updateState cfg (decodeStage cfg d inp.packet)))

/-- Modelled from the spec: the control loop over a sequence of cycles. -/
def run (cfg : Settings) (d : Driver) (cycles : List CycleInput) : Driver :=
  cycles.foldl (run_cycle cfg) d

/-- A sample choice of the settings, used to instantiate the theorems: lengths
812, 1044 and 1060 for the three later schemas (1060 for 3.2 as in the buffer
comment of the header), re-binding after three consecutive
matches, a keep-alive window of 40 ticks, every value in range, and
`UR_NOT_CONNECTED` wherever section 4.3 says "as appropriate". -/
def sampleSettings : Settings where
  len18 := 812
  len3031 := 1044
  len32 := 1060
  several := 3
  keepAlive := 40
  inRange := fun _ => true
  asAppropriate := fun _ _ => UR_NOT_CONNECTED

/-- A sample driver state in operation: idle, bound to the 3.2 schema, the
controller reporting its idle mode, nothing outstanding and nothing sent. -/
def sampleIdleDriver : Driver where
  UR_State := UR_IDLE
  version := VER_32
  PacketCount := fun _ => 0
  robot_mode := ROBOT_MODE_IDLE
  outstanding := Outstanding.none
  sent := []
  events := []

/-- A sample driver state right after start-up: not connected, no version
bound, nothing sent. -/
def sampleDriver : Driver where
  UR_State := UR_NOT_CONNECTED
  version := VER_UNKNOWN
  PacketCount := fun _ => 0
  robot_mode := ROBOT_MODE_DISCONNECTED
  outstanding := Outstanding.none
  sent := []
  events := []

/-! ## Theorems -/

/-- C1: the receive buffer (1500 bytes) is at least the largest packet length
(1295) and less than twice the minimum packet length (764); so for packet
lengths `L1`, `L2` between 764 and 1295 one packet fits and two do not, and any
collection of complete packets that fits in the buffer has at most one
member. -/
theorem buffer_holds_one_packet_never_two :
    maxPacketLength ≤ bufferCapacity ∧
    bufferCapacity < 2 * minPacketLength ∧
    (∀ L1 L2 : Nat, minPacketLength ≤ L1 → L1 ≤ maxPacketLength →
        minPacketLength ≤ L2 → L2 ≤ maxPacketLength →
        L1 ≤ bufferCapacity ∧ bufferCapacity < L1 + L2) ∧
    (∀ packets : List Nat,
        (∀ L ∈ packets, minPacketLength ≤ L ∧ L ≤ maxPacketLength) →
        packets.sum ≤ bufferCapacity → packets.length ≤ 1) := by
  refine ⟨by decide, by decide, ?_, ?_⟩
  · intro L1 L2 h1 h2 h3 h4
    simp only [minPacketLength, maxPacketLength, bufferCapacity] at *
    omega
  · intro packets hall hsum
    match packets, hall, hsum with
    | [], _, _ => simp
    | [_], _, _ => simp
    | a :: b :: rest, hall, hsum =>
      have ha := (hall a (by simp)).1
      have hb := (hall b (by simp)).1
      simp only [List.sum_cons, minPacketLength, bufferCapacity] at *
      omega

/-- Witness for C1: a 764-byte and a 1060-byte packet, and a buffer holding the
single 1295-byte packet. -/
theorem buffer_holds_one_packet_never_two_witness :
    (764 ≤ bufferCapacity ∧ bufferCapacity < 764 + 1060) ∧ [1295].length ≤ 1 :=
  ⟨buffer_holds_one_packet_never_two.2.2.1 764 1060 (by decide) (by decide) (by decide)
      (by decide),
   buffer_holds_one_packet_never_two.2.2.2 [1295] (by decide) (by decide)⟩

/-- C2: for each of the seven driver motion states `GetConnected` reports true
exactly when the state is not `UR_NOT_CONNECTED`, and it hands the object back
unchanged; it is false for that one state only and true for the six others,
`UR_POWERING_OFF` and `UR_POWERING_ON` among them. -/
theorem GetConnected_true_iff_not_UR_NOT_CONNECTED :
    Fintype.card UR_STATES = 7 ∧
    (∀ self : Members,
        ((GetConnected self).2 = true ↔ self.UR_State ≠ UR_NOT_CONNECTED) ∧
        (GetConnected self).1 = self) ∧
    (∀ v : FirmwareVersion,
        Finset.univ.filter (fun s : UR_STATES => (GetConnected ⟨s, v⟩).2 = false)
          = {UR_NOT_CONNECTED} ∧
        Finset.univ.filter (fun s : UR_STATES => (GetConnected ⟨s, v⟩).2 = true)
          = {UR_IDLE, UR_POS_MOVING, UR_VEL_MOVING, UR_FREE_DRIVE, UR_POWERING_OFF,
              UR_POWERING_ON} ∧
        (Finset.univ.filter (fun s : UR_STATES => (GetConnected ⟨s, v⟩).2 = true)).card
          = 6) := by
  refine ⟨by decide, ?_, ?_⟩
  · rintro ⟨s, v⟩
    cases s <;> simp [GetConnected]
  · intro v
    cases v <;> decide

/-- C4: the robot mode is a closed set of nine values whose codes are 0 to 8 in
the order disconnected, confirm-safety, booting, power-off, power-on, idle,
backdrive, running, updating-firmware; the code map is injective, and an integer
is the code of a mode exactly when it lies in 0..8, in which case the mode is
unique. -/
theorem RobotModes_codes_zero_to_eight :
    Fintype.card RobotModes = 9 ∧
    [ROBOT_MODE_DISCONNECTED, ROBOT_MODE_CONFIRM_SAFETY, ROBOT_MODE_BOOTING,
      ROBOT_MODE_POWER_OFF, ROBOT_MODE_POWER_ON, ROBOT_MODE_IDLE, ROBOT_MODE_BACKDRIVE,
      ROBOT_MODE_RUNNING, ROBOT_MODE_UPDATING_FIRMWARE].map RobotModes.toInt
      = [0, 1, 2, 3, 4, 5, 6, 7, 8] ∧
    Function.Injective RobotModes.toInt ∧
    (∀ c : Int, (∃ m : RobotModes, m.toInt = c) ↔ (0 ≤ c ∧ c ≤ 8)) ∧
    (∀ c : Int, (∃! m : RobotModes, m.toInt = c) ↔ (0 ≤ c ∧ c ≤ 8)) := by
  have hinj : Function.Injective RobotModes.toInt := by
    intro a b h
    cases a <;> cases b <;> first | rfl | (simp [RobotModes.toInt] at h)
  have hrange : ∀ c : Int, (∃ m : RobotModes, m.toInt = c) ↔ (0 ≤ c ∧ c ≤ 8) := by
    intro c
    constructor
    · rintro ⟨m, rfl⟩
      cases m <;> simp [RobotModes.toInt]
    · rintro ⟨h0, h8⟩
      have hc : c = 0 ∨ c = 1 ∨ c = 2 ∨ c = 3 ∨ c = 4 ∨ c = 5 ∨ c = 6 ∨ c = 7 ∨ c = 8 := by
        omega
      rcases hc with h | h | h | h | h | h | h | h | h <;> subst h
      · exact ⟨ROBOT_MODE_DISCONNECTED, rfl⟩
      · exact ⟨ROBOT_MODE_CONFIRM_SAFETY, rfl⟩
      · exact ⟨ROBOT_MODE_BOOTING, rfl⟩
      · exact ⟨ROBOT_MODE_POWER_OFF, rfl⟩
      · exact ⟨ROBOT_MODE_POWER_ON, rfl⟩
      · exact ⟨ROBOT_MODE_IDLE, rfl⟩
      · exact ⟨ROBOT_MODE_BACKDRIVE, rfl⟩
      · exact ⟨ROBOT_MODE_RUNNING, rfl⟩
      · exact ⟨ROBOT_MODE_UPDATING_FIRMWARE, rfl⟩
  refine ⟨by decide, by decide, hinj, hrange, ?_⟩
  intro c
  constructor
  · rintro ⟨m, hm, -⟩
    exact (hrange c).1 ⟨m, hm⟩
  · intro h
    obtain ⟨m, hm⟩ := (hrange c).2 h
    exact ⟨m, hm, fun m2 hm2 => hinj (hm2.trans hm.symm)⟩

/-- C5: for a driver holding one of the firmware versions Unknown, Pre18, V18,
V30_31, V32 (any enumerator but the table dimension `VER_MAX`), `GetVersion`
returns the code 0, 1, 2, 3, 4 respectively and leaves the object unchanged; the
code determines the version, is at least 0 and below `VER_MAX = 5`, so it indexes
the per-version tables and the five names of the console, where it selects
"Unknown", "Pre-1.8", "1.8", "3.0/3.1", "3.2" and never the "invalid response"
branch. -/
theorem GetVersion_code_indexes_tables_and_names (self : Members)
    (h : self.version ≠ VER_MAX) :
    (GetVersion self).1 = self ∧
    [VER_UNKNOWN, VER_PRE_18, VER_18, VER_30_31, VER_32].map
        (fun v => (GetVersion ⟨self.UR_State, v⟩).2) = [0, 1, 2, 3, 4] ∧
    (∀ other : Members, (GetVersion other).2 = (GetVersion self).2 →
        other.version = self.version) ∧
    0 ≤ (GetVersion self).2 ∧
    (GetVersion self).2 < VER_MAX.toInt ∧
    VER_MAX.toInt = 5 ∧
    (GetVersion self).2.toNat < perVersionTableSize ∧
    (GetVersion self).2.toNat < UniversalRobotClient.versionString.length ∧
    UniversalRobotClient.versionString.length = 5 ∧
    UniversalRobotClient.showVersion (GetVersion self).2
      = UniversalRobotClient.VersionOutput.versionName (GetVersion self).2 ∧
    (∀ r : Int, UniversalRobotClient.showVersion (GetVersion self).2
      ≠ UniversalRobotClient.VersionOutput.invalidResponse r) ∧
    UniversalRobotClient.versionStringAt (GetVersion self).2
      = (match self.version with
          | VER_UNKNOWN => some "Unknown"
          | VER_PRE_18 => some "Pre-1.8"
          | VER_18 => some "1.8"
          | VER_30_31 => some "3.0/3.1"
          | VER_32 => some "3.2"
          | VER_MAX => none) := by
  obtain ⟨s, v⟩ := self
  have hinj : ∀ a b : FirmwareVersion, a.toInt = b.toInt → a = b := by
    intro a b hab
    cases a <;> cases b <;> first | rfl | (simp [FirmwareVersion.toInt] at hab)
  have hname : ∀ w : FirmwareVersion, w ≠ VER_MAX →
      UniversalRobotClient.showVersion w.toInt
        = UniversalRobotClient.VersionOutput.versionName w.toInt := by
    intro w hw
    cases w <;> first | exact absurd rfl hw | decide
  refine ⟨rfl, rfl, fun other ho => hinj _ _ ho, ?_⟩
  cases v
  case VER_MAX => exact absurd rfl h
  all_goals
    dsimp only [GetVersion]
    refine ⟨by decide, by decide, by decide, by decide, by decide, by decide,
      hname _ (by decide), ?_, by decide⟩
    intro r hr
    rw [hname _ (by decide)] at hr
    exact UniversalRobotClient.VersionOutput.noConfusion hr

/-- Witness for C5: a connected driver bound to firmware 3.2. -/
theorem GetVersion_code_indexes_tables_and_names_witness :
    (GetVersion ⟨UR_IDLE, VER_32⟩).2 = 4 ∧
    UniversalRobotClient.versionStringAt (GetVersion ⟨UR_IDLE, VER_32⟩).2 = some "3.2" :=
  ⟨by decide,
   (GetVersion_code_indexes_tables_and_names ⟨UR_IDLE, VER_32⟩ (by decide)).2.2.2.2.2.2.2.2.2.2.2⟩

/-- C10: the joint mode codes are thirteen pairwise distinct integers, the
consecutive values 236 (shutting down) to 248 (idle); each fits in an unsigned
byte, and none of them is a robot mode code (0 to 8). -/
theorem JointModes_codes_236_to_248 :
    Fintype.card JointModes = 13 ∧
    [JOINT_SHUTTING_DOWN_MODE, JOINT_PART_D_CALIBRATION_MODE, JOINT_BACKDRIVE_MODE,
      JOINT_POWER_OFF_MODE, JOINT_NOT_RESPONDING_MODE, JOINT_MOTOR_INITIALISATION_MODE,
      JOINT_BOOTING_MODE, JOINT_PART_D_CALIBRATION_ERROR_MODE, JOINT_BOOTLOADER_MODE,
      JOINT_CALIBRATION_MODE, JOINT_FAULT_MODE, JOINT_RUNNING_MODE,
      JOINT_IDLE_MODE].map JointModes.toInt
      = (List.range 13).map (fun i => (236 : Int) + i) ∧
    Function.Injective JointModes.toInt ∧
    (∀ c : Int, (∃ j : JointModes, j.toInt = c) ↔ (236 ≤ c ∧ c ≤ 248)) ∧
    (∀ j : JointModes, 0 ≤ j.toInt ∧ j.toInt ≤ 255) ∧
    (∀ (j : JointModes) (m : RobotModes), j.toInt ≠ m.toInt) ∧
    (∀ c : Int, ¬ ((∃ j : JointModes, j.toInt = c) ∧ (∃ m : RobotModes, m.toInt = c))) := by
  have hinj : Function.Injective JointModes.toInt := by
    intro a b h
    cases a <;> cases b <;> first | rfl | (simp [JointModes.toInt] at h)
  have hlo : ∀ j : JointModes, 236 ≤ j.toInt ∧ j.toInt ≤ 248 := by
    intro j
    cases j <;> simp [JointModes.toInt]
  have hhi : ∀ m : RobotModes, 0 ≤ m.toInt ∧ m.toInt ≤ 8 := by
    intro m
    cases m <;> simp [RobotModes.toInt]
  have hne : ∀ (j : JointModes) (m : RobotModes), j.toInt ≠ m.toInt := by
    intro j m hjm
    have h1 := (hlo j).1
    have h2 := (hhi m).2
    omega
  refine ⟨by decide, by decide, hinj, ?_, ?_, hne, ?_⟩
  · intro c
    constructor
    · rintro ⟨j, rfl⟩
      exact hlo j
    · rintro ⟨h0, h8⟩
      have hc : c = 236 ∨ c = 237 ∨ c = 238 ∨ c = 239 ∨ c = 240 ∨ c = 241 ∨ c = 242 ∨
          c = 243 ∨ c = 244 ∨ c = 245 ∨ c = 246 ∨ c = 247 ∨ c = 248 := by
        omega
      rcases hc with h | h | h | h | h | h | h | h | h | h | h | h | h <;> subst h
      · exact ⟨JOINT_SHUTTING_DOWN_MODE, rfl⟩
      · exact ⟨JOINT_PART_D_CALIBRATION_MODE, rfl⟩
      · exact ⟨JOINT_BACKDRIVE_MODE, rfl⟩
      · exact ⟨JOINT_POWER_OFF_MODE, rfl⟩
      · exact ⟨JOINT_NOT_RESPONDING_MODE, rfl⟩
      · exact ⟨JOINT_MOTOR_INITIALISATION_MODE, rfl⟩
      · exact ⟨JOINT_BOOTING_MODE, rfl⟩
      · exact ⟨JOINT_PART_D_CALIBRATION_ERROR_MODE, rfl⟩
      · exact ⟨JOINT_BOOTLOADER_MODE, rfl⟩
      · exact ⟨JOINT_CALIBRATION_MODE, rfl⟩
      · exact ⟨JOINT_FAULT_MODE, rfl⟩
      · exact ⟨JOINT_RUNNING_MODE, rfl⟩
      · exact ⟨JOINT_IDLE_MODE, rfl⟩
  · intro j
    have h := hlo j
    omega
  · rintro c ⟨⟨j, hj⟩, ⟨m, hm⟩⟩
    exact hne j m (hj.trans hm.symm)

/-- C8: `move_cartesian_position` called while the driver state is
`UR_NOT_CONNECTED`, whatever the pose, raises the `RobotNotReady` event and does
nothing else: nothing is written to the socket and the driver state, the
outstanding command and the rest of the driver are unchanged; the same holds
when the request is serviced from the queue. -/
theorem CartesianPositionMove_not_connected_is_rejected (cfg : Settings) (d : Driver)
    (cartPos : List Int) (h : d.UR_State = UR_NOT_CONNECTED) :
    (CartesianPositionMove cfg d cartPos).1
      = { d with events := d.events ++ [Event.RobotNotReady] } ∧
    (CartesianPositionMove cfg d cartPos).1.events = d.events ++ [Event.RobotNotReady] ∧
    (CartesianPositionMove cfg d cartPos).1.sent = d.sent ∧
    (CartesianPositionMove cfg d cartPos).1.UR_State = UR_NOT_CONNECTED ∧
    (CartesianPositionMove cfg d cartPos).1.outstanding = d.outstanding ∧
    (CartesianPositionMove cfg d cartPos).2 = Reply.done ∧
    (∀ now : Nat, service cfg now d (Request.move_cartesian_position cartPos)
      = { d with events := d.events ++ [Event.RobotNotReady] }) := by
  have hr : readyForPositionMove d = false := by
    simp [readyForPositionMove, h]
  have hm : CartesianPositionMove cfg d cartPos = (RobotNotReady d, Reply.done) := by
    simp [CartesianPositionMove, hr]
  simp only [service, hm, RobotNotReady, h, and_self, implies_true]

/-- Witness for C8: the start-up driver, asked to move to the origin pose. -/
theorem CartesianPositionMove_not_connected_is_rejected_witness :
    (CartesianPositionMove sampleSettings sampleDriver [0, 0, 0, 0, 0, 0]).1.events
      = [Event.RobotNotReady] ∧
    (CartesianPositionMove sampleSettings sampleDriver [0, 0, 0, 0, 0, 0]).1.sent = [] :=
  ⟨(CartesianPositionMove_not_connected_is_rejected sampleSettings sampleDriver
      [0, 0, 0, 0, 0, 0] rfl).2.1,
   (CartesianPositionMove_not_connected_is_rejected sampleSettings sampleDriver
      [0, 0, 0, 0, 0, 0] rfl).2.2.1⟩

/-! ### Stage lemmas of the cycle -/

/-- The version binding touches neither the dispatcher nor the driver state. -/
theorem bindVersion_frame (cfg : Settings) (d : Driver) (len : Nat) :
    (bindVersion cfg d len).outstanding = d.outstanding ∧
    (bindVersion cfg d len).sent = d.sent ∧
    (bindVersion cfg d len).UR_State = d.UR_State ∧
    (bindVersion cfg d len).robot_mode = d.robot_mode := by
  unfold bindVersion
  split
  · exact ⟨rfl, rfl, rfl, rfl⟩
  · split
    · exact ⟨rfl, rfl, rfl, rfl⟩
    · split
      · exact ⟨rfl, rfl, rfl, rfl⟩
      · split <;> exact ⟨rfl, rfl, rfl, rfl⟩

/-- Decoding a packet touches neither the dispatcher nor the driver state. -/
theorem decodePacket_frame (cfg : Settings) (d : Driver) (p : Packet) :
    (decodePacket cfg d p).outstanding = d.outstanding ∧
    (decodePacket cfg d p).sent = d.sent ∧
    (decodePacket cfg d p).UR_State = d.UR_State ∧
    (decodePacket cfg d p).version = (bindVersion cfg d p.length).version ∧
    (decodePacket cfg d p).PacketCount = (bindVersion cfg d p.length).PacketCount := by
  obtain ⟨h1, h2, h3, -⟩ := bindVersion_frame cfg d p.length
  unfold decodePacket
  dsimp only
  split
  · exact ⟨h1, h2, h3, rfl, rfl⟩
  · exact ⟨h1, h2, h3, rfl, rfl⟩

/-- The decode stage touches neither the dispatcher nor the driver state. -/
theorem decodeStage_frame (cfg : Settings) (d : Driver) (packet : Option Packet) :
    (decodeStage cfg d packet).outstanding = d.outstanding ∧
    (decodeStage cfg d packet).sent = d.sent ∧
    (decodeStage cfg d packet).UR_State = d.UR_State := by
  cases packet with
  | none => exact ⟨rfl, rfl, rfl⟩
  | some p =>
    obtain ⟨h1, h2, h3, -, -⟩ := decodePacket_frame cfg d p
    exact ⟨h1, h2, h3⟩

/-- Servicing a request never writes the driver state. -/
theorem service_UR_State (cfg : Settings) (now : Nat) (d : Driver) (r : Request) :
    (service cfg now d r).UR_State = d.UR_State := by
  cases r <;>
    simp only [service, JointPositionMove, CartesianPositionMove, JointVelocityMove,
      CartesianVelocityMove, issueVelocity, StopMotion, SetRobotFreeDriveMode,
      SetRobotRunningMode, DisableMotorPower, RobotNotReady] <;>
    repeat (first | rfl | split)

/-- Servicing a queue of requests never writes the driver state. -/
theorem service_all_UR_State (cfg : Settings) (now : Nat) (requests : List Request) :
    ∀ d : Driver, (requests.foldl (service cfg now) d).UR_State = d.UR_State := by
  induction requests with
  | nil => intro d; rfl
  | cons r rest ih =>
    intro d
    rw [List.foldl_cons, ih, service_UR_State]

/-- The expiry stage never writes the driver state. -/
theorem expire_UR_State (now : Nat) (d : Driver) : (expire now d).UR_State = d.UR_State := by
  unfold expire
  split
  · split <;> rfl
  · rfl

/-- The version binding does not read the driver state. -/
theorem bindVersion_ignores_UR_State (cfg : Settings) (d : Driver) (s : UR_STATES)
    (len : Nat) :
    bindVersion cfg { d with UR_State := s } len
      = { bindVersion cfg d len with UR_State := s } := by
  unfold bindVersion
  dsimp only
  split
  · rfl
  · split
    · rfl
    · split
      · rfl
      · split <;> rfl

/-- The decode stage does not read the driver state. -/
theorem decodeStage_ignores_UR_State (cfg : Settings) (d : Driver) (s : UR_STATES)
    (packet : Option Packet) :
    decodeStage cfg { d with UR_State := s } packet
      = { decodeStage cfg d packet with UR_State := s } := by
  cases packet with
  | none => rfl
  | some p =>
    simp only [decodeStage, decodePacket, bindVersion_ignores_UR_State]
    split <;> rfl

/-- C9: the driver state is level-triggered. A cycle started from any previous
driver state ends in the same driver, whose state is the derivation of section
4.3 applied to the robot mode current after the decode and the command
outstanding at the dispatcher; Backdrive always gives FreeDrive, PowerOn and
Idle with no outstanding move give Idle, and Running gives PositionMoving with a
position move outstanding and VelocityMoving with a velocity command
outstanding. -/
theorem UR_State_is_level_triggered (cfg : Settings) (d : Driver) (inp : CycleInput) :
    (∀ previous : UR_STATES,
      run_cycle cfg { d with UR_State := previous } inp = run_cycle cfg d inp) ∧
    (run_cycle cfg d inp).UR_State
      = deriveState cfg (decodeStage cfg d inp.packet).robot_mode d.outstanding ∧
    (inp.packet = Option.none →
      (run_cycle cfg d inp).UR_State = deriveState cfg d.robot_mode d.outstanding) ∧
    (∀ out : Outstanding, deriveState cfg ROBOT_MODE_BACKDRIVE out = UR_FREE_DRIVE) ∧
    deriveState cfg ROBOT_MODE_POWER_ON Outstanding.none = UR_IDLE ∧
    deriveState cfg ROBOT_MODE_IDLE Outstanding.none = UR_IDLE ∧
    deriveState cfg ROBOT_MODE_RUNNING Outstanding.positionMove = UR_POS_MOVING ∧
    (∀ pending : PendingVelocityCommand,
      deriveState cfg ROBOT_MODE_RUNNING (Outstanding.velocity pending) = UR_VEL_MOVING) := by
  have hstate : (run_cycle cfg d inp).UR_State
      = deriveState cfg (decodeStage cfg d inp.packet).robot_mode d.outstanding := by
    unfold run_cycle
    rw [expire_UR_State, service_all_UR_State, ← (decodeStage_frame cfg d inp.packet).1]
    rfl
  refine ⟨?_, hstate, ?_, fun out => ?_, rfl, rfl, rfl, fun _ => rfl⟩
  · intro previous
    unfold run_cycle
    rw [decodeStage_ignores_UR_State]
    rfl
  · intro hnone
    rw [hstate, hnone]
    rfl
  · cases out <;> rfl

/-! ### Version binding over a sequence of packets -/

/-- Decoding a packet raises the events of the version binding and no other. -/
theorem decodePacket_events (cfg : Settings) (d : Driver) (p : Packet) :
    (decodePacket cfg d p).events = (bindVersion cfg d p.length).events := by
  unfold decodePacket
  dsimp only
  split <;> rfl

/-- A packet of the bound version's length keeps the version, ends every run of
another length and raises no event. -/
theorem decodePacket_matching (cfg : Settings) (d : Driver) (p : Packet)
    (hbound : d.version ≠ VER_UNKNOWN) (hlen : p.length = PacketLength cfg d.version) :
    (decodePacket cfg d p).version = d.version ∧
    (decodePacket cfg d p).events = d.events ∧
    (decodePacket cfg d p).PacketCount = fun _ => 0 := by
  obtain ⟨-, -, -, hv, hc⟩ := decodePacket_frame cfg d p
  rw [hv, hc, decodePacket_events]
  unfold bindVersion
  rw [if_pos ⟨hbound, hlen⟩]
  exact ⟨rfl, rfl, rfl⟩

/-- With no run of another length under way, one packet of another length does
not re-bind the version when re-binding takes at least two in a row; it is
reported as an invalid packet. -/
theorem decodePacket_single_mismatch (cfg : Settings) (d : Driver) (p : Packet)
    (hseveral : 2 ≤ cfg.several) (hbound : d.version ≠ VER_UNKNOWN)
    (hcount : d.PacketCount = fun _ => 0)
    (hlen : p.length ≠ PacketLength cfg d.version) :
    (decodePacket cfg d p).version = d.version ∧
    (decodePacket cfg d p).events
      = d.events ++ [Event.PacketInvalid p.length (PacketLength cfg d.version)] := by
  rw [(decodePacket_frame cfg d p).2.2.2.1, decodePacket_events]
  unfold bindVersion
  rw [if_neg (fun h => hlen h.2)]
  cases matchVersion cfg p.length with
  | none => exact ⟨rfl, rfl⟩
  | some v =>
    have hzero : d.PacketCount v = 0 := by rw [hcount]
    have hnot : ¬ cfg.several ≤ d.PacketCount v + 1 := by
      rw [hzero]
      omega
    simp only [if_neg hbound, if_neg hnot, and_self]

/-- Packets of the bound version's length, one after the other, keep the
version and raise no event. -/
theorem decode_all_matching (cfg : Settings) (v : FirmwareVersion) (hv : v ≠ VER_UNKNOWN)
    (packets : List Packet) :
    ∀ d : Driver, d.version = v → (∀ p ∈ packets, p.length = PacketLength cfg v) →
      (packets.foldl (decodePacket cfg) d).version = v ∧
      (packets.foldl (decodePacket cfg) d).events = d.events ∧
      (packets ≠ [] → (packets.foldl (decodePacket cfg) d).PacketCount = fun _ => 0) := by
  induction packets with
  | nil =>
    intro d hd _
    exact ⟨hd, rfl, fun h => absurd rfl h⟩
  | cons p rest ih =>
    intro d hd hall
    have hp : p.length = PacketLength cfg d.version := by
      rw [hd]
      exact hall p (List.mem_cons_self _ _)
    obtain ⟨h1, h2, h3⟩ := decodePacket_matching cfg d p (hd ▸ hv) hp
    have hrest := ih (decodePacket cfg d p) (h1.trans hd)
      (fun q hq => hall q (List.mem_cons_of_mem _ hq))
    refine ⟨hrest.1, hrest.2.1.trans h2, fun _ => ?_⟩
    rw [List.foldl_cons]
    cases rest with
    | nil => exact h3
    | cons q more => exact hrest.2.2 (List.cons_ne_nil _ _)

/-- C7: the version binding is stable under a single bad length. When re-binding
takes several (at least two) consecutive packets of another length, a sequence
made of packets of the bound version's length (at least one), then one packet
whose length does not match, then again packets of the bound version's length
leaves the bound version as it was; the only event of the sequence is the report
of the one bad packet. -/
theorem version_binding_survives_one_bad_length (cfg : Settings) (d : Driver)
    (before after : List Packet) (bad : Packet)
    (hseveral : 2 ≤ cfg.several)
    (hbound : d.version ≠ VER_UNKNOWN)
    (hsome : before ≠ [])
    (hbefore : ∀ p ∈ before, p.length = PacketLength cfg d.version)
    (hbad : bad.length ≠ PacketLength cfg d.version)
    (hafter : ∀ p ∈ after, p.length = PacketLength cfg d.version) :
    ((before ++ bad :: after).foldl (decodePacket cfg) d).version = d.version ∧
    ((before ++ bad :: after).foldl (decodePacket cfg) d).events
      = d.events ++ [Event.PacketInvalid bad.length (PacketLength cfg d.version)] := by
  obtain ⟨hv1, he1, hc1⟩ := decode_all_matching cfg d.version hbound before d rfl hbefore
  obtain ⟨hv2, he2⟩ := decodePacket_single_mismatch cfg (before.foldl (decodePacket cfg) d)
    bad hseveral (hv1 ▸ hbound) (hc1 hsome) (hv1 ▸ hbad)
  obtain ⟨hv3, he3, -⟩ := decode_all_matching cfg d.version hbound after
    (decodePacket cfg (before.foldl (decodePacket cfg) d) bad) (hv2.trans hv1) hafter
  rw [List.foldl_append, List.foldl_cons]
  refine ⟨hv3, ?_⟩
  rw [he3, he2, he1, hv1]

/-- Witness for C7: bound to 3.2 (1060 bytes), two good packets, one 812-byte
packet, two good packets. -/
theorem version_binding_survives_one_bad_length_witness :
    (([Packet.mk 1060 ROBOT_MODE_RUNNING, Packet.mk 1060 ROBOT_MODE_RUNNING] ++
        Packet.mk 812 ROBOT_MODE_IDLE ::
        [Packet.mk 1060 ROBOT_MODE_RUNNING, Packet.mk 1060 ROBOT_MODE_RUNNING]).foldl
      (decodePacket sampleSettings) { sampleDriver with version := VER_32 }).version
      = VER_32 :=
  (version_binding_survives_one_bad_length sampleSettings
    { sampleDriver with version := VER_32 }
    [Packet.mk 1060 ROBOT_MODE_RUNNING, Packet.mk 1060 ROBOT_MODE_RUNNING]
    [Packet.mk 1060 ROBOT_MODE_RUNNING, Packet.mk 1060 ROBOT_MODE_RUNNING]
    (Packet.mk 812 ROBOT_MODE_IDLE)
    (by decide) (by decide) (by decide) (by decide) (by decide) (by decide)).1

/-! ### The keep-alive of a velocity command -/

/-- The expiry stage on a pending velocity command whose window has elapsed: one
zero-velocity stop is written and the command is cleared. -/
theorem expire_elapsed (now : Nat) (d : Driver) (pending : PendingVelocityCommand)
    (hout : d.outstanding = Outstanding.velocity pending)
    (hlate : pending.issued + pending.VelCmdTimeout ≤ now) :
    (expire now d).sent = d.sent ++ [Command.zeroVelocityStop] ∧
    (expire now d).outstanding = Outstanding.none := by
  simp only [expire, hout, if_pos hlate, and_self]

/-- The expiry stage on a pending velocity command inside its window does
nothing. -/
theorem expire_alive (now : Nat) (d : Driver) (pending : PendingVelocityCommand)
    (hout : d.outstanding = Outstanding.velocity pending)
    (hearly : now < pending.issued + pending.VelCmdTimeout) :
    expire now d = d := by
  simp only [expire, hout, if_neg (Nat.not_le.mpr hearly)]

/-- The expiry stage without a pending velocity command does nothing. -/
theorem expire_no_pending (now : Nat) (d : Driver)
    (hout : d.outstanding = Outstanding.none) :
    expire now d = d := by
  simp only [expire, hout]

/-- The stages before the expiry of a cycle without requests leave the
dispatcher as it was. -/
theorem quiet_stages_frame (cfg : Settings) (d : Driver) (inp : CycleInput)
    (hquiet : inp.requests = []) :
    (inp.requests.foldl (service cfg inp.now)
        (updateState cfg (decodeStage cfg d inp.packet))).outstanding = d.outstanding ∧
    (inp.requests.foldl (service cfg inp.now)
        (updateState cfg (decodeStage cfg d inp.packet))).sent = d.sent := by
  rw [hquiet, List.foldl_nil]
  exact ⟨(decodeStage_frame cfg d inp.packet).1, (decodeStage_frame cfg d inp.packet).2.1⟩

/-- Cycles without requests and without a pending velocity command write nothing
to the socket. -/
theorem run_quiet_no_pending (cfg : Settings) (cycles : List CycleInput) :
    ∀ d : Driver, d.outstanding = Outstanding.none →
      (∀ c ∈ cycles, c.requests = []) →
      (run cfg d cycles).sent = d.sent ∧
      (run cfg d cycles).outstanding = Outstanding.none := by
  induction cycles with
  | nil =>
    intro d hout _
    exact ⟨rfl, hout⟩
  | cons c rest ih =>
    intro d hout hquiet
    obtain ⟨ho, hs⟩ := quiet_stages_frame cfg d c (hquiet c (List.mem_cons_self _ _))
    have hstep : run_cycle cfg d c
        = c.requests.foldl (service cfg c.now)
            (updateState cfg (decodeStage cfg d c.packet)) :=
      expire_no_pending c.now _ (ho.trans hout)
    have hrest := ih (run_cycle cfg d c) (by rw [hstep, ho, hout])
      (fun q hq => hquiet q (List.mem_cons_of_mem _ hq))
    refine ⟨?_, hrest.2⟩
    show (run cfg (run_cycle cfg d c) rest).sent = d.sent
    rw [hrest.1, hstep, hs]

/-- Cycles without requests that all fall inside the window of the pending
velocity command write nothing to the socket and keep the command pending. -/
theorem run_quiet_alive (cfg : Settings) (pending : PendingVelocityCommand)
    (cycles : List CycleInput) :
    ∀ d : Driver, d.outstanding = Outstanding.velocity pending →
      (∀ c ∈ cycles, c.requests = [] ∧ c.now < pending.issued + pending.VelCmdTimeout) →
      (run cfg d cycles).sent = d.sent ∧
      (run cfg d cycles).outstanding = Outstanding.velocity pending := by
  induction cycles with
  | nil =>
    intro d hout _
    exact ⟨rfl, hout⟩
  | cons c rest ih =>
    intro d hout hall
    obtain ⟨hq, hearly⟩ := hall c (List.mem_cons_self _ _)
    obtain ⟨ho, hs⟩ := quiet_stages_frame cfg d c hq
    have hstep : run_cycle cfg d c
        = c.requests.foldl (service cfg c.now)
            (updateState cfg (decodeStage cfg d c.packet)) :=
      expire_alive c.now _ pending (ho.trans hout) hearly
    have hrest := ih (run_cycle cfg d c) (by rw [hstep, ho, hout])
      (fun q hq => hall q (List.mem_cons_of_mem _ hq))
    refine ⟨?_, hrest.2⟩
    show (run cfg (run_cycle cfg d c) rest).sent = d.sent
    rw [hrest.1, hstep, hs]

/-- Cycles without requests, one of which falls at or after the end of the
window of the pending velocity command, write exactly one zero-velocity stop to
the socket and clear the command. -/
theorem run_quiet_elapsed (cfg : Settings) (pending : PendingVelocityCommand)
    (cycles : List CycleInput) :
    ∀ d : Driver, d.outstanding = Outstanding.velocity pending →
      (∀ c ∈ cycles, c.requests = []) →
      (∃ c ∈ cycles, pending.issued + pending.VelCmdTimeout ≤ c.now) →
      (run cfg d cycles).sent = d.sent ++ [Command.zeroVelocityStop] ∧
      (run cfg d cycles).outstanding = Outstanding.none := by
  induction cycles with
  | nil =>
    rintro d - - ⟨c, hc, -⟩
    exact absurd hc (List.not_mem_nil c)
  | cons c rest ih =>
    intro d hout hquiet hex
    have hq := hquiet c (List.mem_cons_self _ _)
    have hqrest : ∀ q ∈ rest, q.requests = [] :=
      fun q hq => hquiet q (List.mem_cons_of_mem _ hq)
    obtain ⟨ho, hs⟩ := quiet_stages_frame cfg d c hq
    by_cases hlate : pending.issued + pending.VelCmdTimeout ≤ c.now
    · obtain ⟨h1, h2⟩ := expire_elapsed c.now _ pending (ho.trans hout) hlate
      have hrest := run_quiet_no_pending cfg rest (run_cycle cfg d c) h2 hqrest
      refine ⟨?_, hrest.2⟩
      show (run cfg (run_cycle cfg d c) rest).sent = d.sent ++ [Command.zeroVelocityStop]
      rw [hrest.1]
      exact h1.trans (by rw [hs])
    · have hstep : run_cycle cfg d c
          = c.requests.foldl (service cfg c.now)
              (updateState cfg (decodeStage cfg d c.packet)) :=
        expire_alive c.now _ pending (ho.trans hout) (Nat.not_le.mp hlate)
      have hex2 : ∃ q ∈ rest, pending.issued + pending.VelCmdTimeout ≤ q.now := by
        obtain ⟨q, hqmem, hqlate⟩ := hex
        rcases List.mem_cons.mp hqmem with rfl | hmem
        · exact absurd hqlate hlate
        · exact ⟨q, hmem, hqlate⟩
      have hrest := ih (run_cycle cfg d c) (by rw [hstep, ho, hout]) hqrest hex2
      refine ⟨?_, hrest.2⟩
      show (run cfg (run_cycle cfg d c) rest).sent = d.sent ++ [Command.zeroVelocityStop]
      rw [hrest.1, hstep, hs]

/-- The stages before the expiry of a cycle whose only request is a well-formed
`move_joint_velocity`, made when the recomputed driver state admits it: the
command is written and becomes the pending one, stamped with the time of the
cycle. -/
theorem velocity_request_stages (cfg : Settings) (d : Driver) (inp : CycleInput)
    (target : List Int) (hvalid : validTarget cfg target = true)
    (hreq : inp.requests = [Request.move_joint_velocity target])
    (hready : readyForVelocityMove (updateState cfg (decodeStage cfg d inp.packet)) = true) :
    (inp.requests.foldl (service cfg inp.now)
        (updateState cfg (decodeStage cfg d inp.packet))).sent
      = d.sent ++ [Command.velocityJoint target] ∧
    (inp.requests.foldl (service cfg inp.now)
        (updateState cfg (decodeStage cfg d inp.packet))).outstanding
      = Outstanding.velocity
          { VelCmdString := Command.velocityJoint target, issued := inp.now,
            VelCmdTimeout := cfg.keepAlive } := by
  rw [hreq, List.foldl_cons, List.foldl_nil]
  have hop : service cfg inp.now (updateState cfg (decodeStage cfg d inp.packet))
        (Request.move_joint_velocity target)
      = issueVelocity cfg inp.now (updateState cfg (decodeStage cfg d inp.packet))
          (Command.velocityJoint target) := by
    simp only [service, JointVelocityMove, hready, hvalid, if_true]
  rw [hop]
  refine ⟨?_, rfl⟩
  show (decodeStage cfg d inp.packet).sent ++ [Command.velocityJoint target] = _
  rw [(decodeStage_frame cfg d inp.packet).2.1]

/-- A cycle is the expiry stage applied to the result of the stages before. -/
theorem run_cycle_stages (cfg : Settings) (d : Driver) (inp : CycleInput) :
    run_cycle cfg d inp
      = expire inp.now
          (inp.requests.foldl (service cfg inp.now)
            (updateState cfg (decodeStage cfg d inp.packet))) :=
  rfl

/-- C6: the velocity keep-alive. Let `move_joint_velocity` be issued once in the
cycle `first`: the request is well formed and the driver state recomputed in
that cycle admits it (Idle or VelocityMoving). If the cycles after it carry no
request and one of them falls past the keep-alive window, the socket sees the
velocity command followed by exactly one stop command, however many cycles
follow, and the pending velocity command is cleared. If instead a refresh is
issued before the window has elapsed (and admitted likewise), no stop command is
written for as long as the refreshed window lasts: the socket sees the two
velocity commands only and the refreshed command stays pending. A request made
in a driver state that does not admit it issues nothing. -/
theorem velocity_keep_alive_sends_exactly_one_stop (cfg : Settings) (d : Driver)
    (first : CycleInput) (target : List Int)
    (hvalid : validTarget cfg target = true)
    (hfirst : first.requests = [Request.move_joint_velocity target])
    (hready : readyForVelocityMove (updateState cfg (decodeStage cfg d first.packet)) = true) :
    (∀ later : List CycleInput,
      (∀ c ∈ later, c.requests = []) →
      (∃ c ∈ later, first.now + cfg.keepAlive < c.now) →
      (run cfg d (first :: later)).sent
        = d.sent ++ [Command.velocityJoint target, Command.zeroVelocityStop] ∧
      ((run cfg d (first :: later)).sent.drop d.sent.length).countP Command.isStop = 1 ∧
      (run cfg d (first :: later)).outstanding = Outstanding.none) ∧
    (∀ (before after : List CycleInput) (refresh : CycleInput) (target2 : List Int),
      validTarget cfg target2 = true →
      (∀ c ∈ before, c.requests = [] ∧ c.now < first.now + cfg.keepAlive) →
      refresh.requests = [Request.move_joint_velocity target2] →
      readyForVelocityMove
        (updateState cfg (decodeStage cfg (run cfg d (first :: before)) refresh.packet))
        = true →
      first.now ≤ refresh.now →
      refresh.now < first.now + cfg.keepAlive →
      (∀ c ∈ after, c.requests = [] ∧ c.now < refresh.now + cfg.keepAlive) →
      (run cfg d (first :: (before ++ refresh :: after))).sent
        = d.sent ++ [Command.velocityJoint target, Command.velocityJoint target2] ∧
      ((run cfg d (first :: (before ++ refresh :: after))).sent.drop
          d.sent.length).countP Command.isStop = 0 ∧
      (run cfg d (first :: (before ++ refresh :: after))).outstanding
        = Outstanding.velocity
            { VelCmdString := Command.velocityJoint target2, issued := refresh.now,
              VelCmdTimeout := cfg.keepAlive }) ∧
    (∀ (now : Nat) (other : Driver), readyForVelocityMove other = false →
      JointVelocityMove cfg now other target = (RobotNotReady other, Reply.done) ∧
      (JointVelocityMove cfg now other target).1.sent = other.sent ∧
      (JointVelocityMove cfg now other target).1.outstanding = other.outstanding ∧
      (JointVelocityMove cfg now other target).1.events
        = other.events ++ [Event.RobotNotReady]) := by
  obtain ⟨hs1, ho1⟩ := velocity_request_stages cfg d first target hvalid hfirst hready
  refine ⟨?_, ?_, ?_⟩
  · intro later hquiet hpast
    have hmain : (run cfg d (first :: later)).sent
          = d.sent ++ [Command.velocityJoint target, Command.zeroVelocityStop] ∧
        (run cfg d (first :: later)).outstanding = Outstanding.none := by
      show (run cfg (run_cycle cfg d first) later).sent = _ ∧
        (run cfg (run_cycle cfg d first) later).outstanding = _
      by_cases hzero : first.now + cfg.keepAlive ≤ first.now
      · obtain ⟨h1, h2⟩ := expire_elapsed first.now _ _ ho1 hzero
        have hrest := run_quiet_no_pending cfg later (run_cycle cfg d first) h2 hquiet
        refine ⟨?_, hrest.2⟩
        rw [hrest.1]
        refine h1.trans ?_
        rw [hs1, List.append_assoc]
        rfl
      · have hstep := expire_alive first.now _ _ ho1 (Nat.not_le.mp hzero)
        have hex : ∃ c ∈ later, first.now + cfg.keepAlive ≤ c.now := by
          obtain ⟨c, hc, hlt⟩ := hpast
          exact ⟨c, hc, Nat.le_of_lt hlt⟩
        have hrest := run_quiet_elapsed cfg _ later (run_cycle cfg d first)
          (by unfold run_cycle; rw [hstep, ho1]) hquiet hex
        refine ⟨?_, hrest.2⟩
        rw [hrest.1]
        unfold run_cycle
        rw [hstep, hs1, List.append_assoc]
        rfl
    refine ⟨hmain.1, ?_, hmain.2⟩
    rw [hmain.1, List.drop_left]
    rfl
  · intro before after refresh target2 hvalid2 hbefore hrefresh hready2 hmono hintime hafter
    have hpos : first.now < first.now + cfg.keepAlive := Nat.lt_of_le_of_lt hmono hintime
    have hstep := expire_alive first.now _ _ ho1 hpos
    have hd1s : (run_cycle cfg d first).sent = d.sent ++ [Command.velocityJoint target] := by
      unfold run_cycle
      rw [hstep, hs1]
    have hd1o : (run_cycle cfg d first).outstanding
        = Outstanding.velocity
            { VelCmdString := Command.velocityJoint target, issued := first.now,
              VelCmdTimeout := cfg.keepAlive } := by
      unfold run_cycle
      rw [hstep, ho1]
    obtain ⟨hs2, -⟩ := run_quiet_alive cfg _ before (run_cycle cfg d first) hd1o hbefore
    obtain ⟨hs3, ho3⟩ := velocity_request_stages cfg
      (run cfg (run_cycle cfg d first) before) refresh target2 hvalid2 hrefresh hready2
    have hwindow : refresh.now < refresh.now + cfg.keepAlive := by omega
    have hstep3 := expire_alive refresh.now _ _ ho3 hwindow
    have hd3o : (run_cycle cfg (run cfg (run_cycle cfg d first) before) refresh).outstanding
        = Outstanding.velocity
            { VelCmdString := Command.velocityJoint target2, issued := refresh.now,
              VelCmdTimeout := cfg.keepAlive } := by
      rw [run_cycle_stages, hstep3, ho3]
    have hd3s : (run_cycle cfg (run cfg (run_cycle cfg d first) before) refresh).sent
        = d.sent ++ [Command.velocityJoint target, Command.velocityJoint target2] := by
      rw [run_cycle_stages, hstep3, hs3, hs2, hd1s, List.append_assoc]
      rfl
    obtain ⟨hs4, ho4⟩ := run_quiet_alive cfg _ after _ hd3o hafter
    have hrun : run cfg d (first :: (before ++ refresh :: after))
        = run cfg (run_cycle cfg (run cfg (run_cycle cfg d first) before) refresh) after := by
      simp only [run, List.foldl_cons, List.foldl_append]
    rw [hrun]
    refine ⟨hs4.trans hd3s, ?_, ho4⟩
    rw [hs4, hd3s, List.drop_left]
    rfl
  · intro now other hnot
    have hop : JointVelocityMove cfg now other target = (RobotNotReady other, Reply.done) := by
      simp only [JointVelocityMove, hnot, Bool.false_eq_true, if_false]
    rw [hop]
    exact ⟨rfl, rfl, rfl, rfl⟩

/-- Witness for C6: an idle driver bound to the 3.2 schema; a joint velocity is
issued at tick 0 with a window of 40 ticks and the controller reports Running in
the cycles at ticks 8, 41 and 49, which carry no request; and the same command
refreshed, while the driver is VelocityMoving, at tick 30 and observed at tick
60. -/
theorem velocity_keep_alive_sends_exactly_one_stop_witness :
    (run sampleSettings sampleIdleDriver
        [⟨0, Option.none, [Request.move_joint_velocity [100, 0, 0, 0, 0, -50]]⟩,
          ⟨8, some ⟨1060, ROBOT_MODE_RUNNING⟩, []⟩,
          ⟨41, some ⟨1060, ROBOT_MODE_RUNNING⟩, []⟩,
          ⟨49, some ⟨1060, ROBOT_MODE_RUNNING⟩, []⟩]).sent
      = [Command.velocityJoint [100, 0, 0, 0, 0, -50], Command.zeroVelocityStop] ∧
    (run sampleSettings sampleIdleDriver
        [⟨0, Option.none, [Request.move_joint_velocity [100, 0, 0, 0, 0, -50]]⟩,
          ⟨30, some ⟨1060, ROBOT_MODE_RUNNING⟩,
            [Request.move_joint_velocity [100, 0, 0, 0, 0, -50]]⟩,
          ⟨60, some ⟨1060, ROBOT_MODE_RUNNING⟩, []⟩]).sent
      = [Command.velocityJoint [100, 0, 0, 0, 0, -50],
          Command.velocityJoint [100, 0, 0, 0, 0, -50]] :=
  ⟨((velocity_keep_alive_sends_exactly_one_stop sampleSettings sampleIdleDriver
      ⟨0, Option.none, [Request.move_joint_velocity [100, 0, 0, 0, 0, -50]]⟩
      [100, 0, 0, 0, 0, -50] rfl rfl rfl).1
      [⟨8, some ⟨1060, ROBOT_MODE_RUNNING⟩, []⟩, ⟨41, some ⟨1060, ROBOT_MODE_RUNNING⟩, []⟩,
        ⟨49, some ⟨1060, ROBOT_MODE_RUNNING⟩, []⟩]
      (by decide) (by decide)).1,
   ((velocity_keep_alive_sends_exactly_one_stop sampleSettings sampleIdleDriver
      ⟨0, Option.none, [Request.move_joint_velocity [100, 0, 0, 0, 0, -50]]⟩
      [100, 0, 0, 0, 0, -50] rfl rfl rfl).2.1
      [] [⟨60, some ⟨1060, ROBOT_MODE_RUNNING⟩, []⟩]
      ⟨30, some ⟨1060, ROBOT_MODE_RUNNING⟩,
        [Request.move_joint_velocity [100, 0, 0, 0, 0, -50]]⟩
      [100, 0, 0, 0, 0, -50]
      rfl (by decide) rfl rfl (by decide) (by decide) (by decide)).1⟩

end mtsUniversalRobotScriptRT

namespace UniversalRobotClient

/-! ### The console client -/

/-- C12: in a cycle where the driver reports that it is not connected, `Run`
stops after its reads: no key is taken from the keyboard, nothing is extracted
from the input, every call made is one of the reads and none a motion, stop,
mode or power command, the debug flag is unchanged and the client is not killed,
whatever key is waiting, `q` included. -/
theorem Run_not_connected_takes_no_key_and_sends_no_command (k : Constants) (r : Readings)
    (self : Client) (w : Console) (hconn : r.connected = false) :
    Run k r self w = readStage r self w ∧
    (Run k r self w).2.keyboard = w.keyboard ∧
    (Run k r self w).2.cin = w.cin ∧
    (Run k r self w).2.calls = w.calls ++ cycleReads ∧
    (∀ f ∈ (Run k r self w).2.calls.drop w.calls.length, f.isCommand = false) ∧
    (Run k r self w).1.debugMode = self.debugMode ∧
    (Run k r self w).1.killed = self.killed := by
  have hrun : Run k r self w = readStage r self w := by
    simp [Run, hconn]
  rw [hrun]
  refine ⟨rfl, rfl, rfl, rfl, ?_, rfl, rfl⟩
  intro f hf
  have hdrop : (readStage r self w).2.calls.drop w.calls.length = cycleReads := by
    simp [readStage]
  rw [hdrop] at hf
  simp only [cycleReads, List.mem_cons, List.mem_singleton, List.not_mem_nil, or_false] at hf
  rcases hf with rfl | rfl | rfl | rfl | rfl | rfl | rfl <;> rfl

/-- Witness for C12: the sample client, not connected, with `q` waiting. -/
theorem Run_not_connected_takes_no_key_and_sends_no_command_witness :
    (Run sampleConstants { sampleReadings with connected := false } sampleClient
        (sampleConsole ['q'])).2.keyboard = ['q'] ∧
    (Run sampleConstants { sampleReadings with connected := false } sampleClient
        (sampleConsole ['q'])).1.killed = false :=
  ⟨(Run_not_connected_takes_no_key_and_sends_no_command sampleConstants
      { sampleReadings with connected := false } sampleClient (sampleConsole ['q']) rfl).2.1,
   (Run_not_connected_takes_no_key_and_sends_no_command sampleConstants
      { sampleReadings with connected := false } sampleClient (sampleConsole ['q'])
      rfl).2.2.2.2.2.2⟩

/-- C13: for every value of the `int` the driver returns, the version display
prints "invalid response" exactly when the value is negative or at least 5;
otherwise it indexes the name table at that value, which then lies within the
five entries. A negative value is rejected by the unsigned comparison as well,
since its conversion to `size_t` is at least 5. With `x` pressed while
connected, this is the line `Run` prints. -/
theorem showVersion_invalid_iff_out_of_table (version : Int)
    (hmin : INT_MIN ≤ version) (hmax : version ≤ INT_MAX) :
    (showVersion version = VersionOutput.invalidResponse version ↔
      (version < 0 ∨ 5 ≤ version)) ∧
    ((∃ v : Int, showVersion version = VersionOutput.invalidResponse v) ↔
      (version < 0 ∨ 5 ≤ version)) ∧
    (¬ (version < 0 ∨ 5 ≤ version) →
      showVersion version = VersionOutput.versionName version) ∧
    (∀ index : Int, showVersion version = VersionOutput.versionName index →
      index = version ∧ 0 ≤ index ∧ index.toNat < versionString.length ∧
      ∃ name : String, versionStringAt index = some name) ∧
    versionString.length = 5 ∧
    (version < 0 → versionString.length ≤ toSizeT version) ∧
    (∀ (k : Constants) (r : Readings) (self : Client) (w : Console) (rest : List Char),
      r.version = version → r.connected = true → w.keyboard = 'x' :: rest →
      (Run k r self w).2.cout
        = w.cout ++ r.queuedEvents.map Output.event ++
            [Output.version (showVersion version), statusLine k r (readStage r self w).1]) := by
  have h64 : (2 : Int) ^ sizeBits = 18446744073709551616 := by norm_num [sizeBits]
  have hlen : versionString.length = 5 := rfl
  have hsize : toSizeT version = (version % 18446744073709551616).toNat := by
    rw [toSizeT, h64]
  have hneg : version < 0 → versionString.length ≤ toSizeT version := by
    intro h
    rw [hsize, hlen]
    simp only [INT_MIN] at hmin
    omega
  have hcond : (version < 0 ∨ toSizeT version ≥ versionString.length) ↔
      (version < 0 ∨ 5 ≤ version) := by
    rw [hsize, hlen]
    simp only [INT_MIN, INT_MAX] at hmin hmax
    omega
  have hbad : (version < 0 ∨ 5 ≤ version) →
      showVersion version = VersionOutput.invalidResponse version := by
    intro h
    rw [showVersion, if_pos (hcond.2 h)]
  have hgood : ¬ (version < 0 ∨ 5 ≤ version) →
      showVersion version = VersionOutput.versionName version := by
    intro h
    rw [showVersion, if_neg (fun hc => h (hcond.1 hc))]
  have hiff : showVersion version = VersionOutput.invalidResponse version ↔
      (version < 0 ∨ 5 ≤ version) := by
    constructor
    · intro h
      by_contra hc
      rw [hgood hc] at h
      exact VersionOutput.noConfusion h
    · exact hbad
  refine ⟨hiff, ?_, hgood, ?_, hlen, hneg, ?_⟩
  · constructor
    · rintro ⟨v, hv⟩
      by_contra hc
      rw [hgood hc] at hv
      exact VersionOutput.noConfusion hv
    · intro h
      exact ⟨version, hbad h⟩
  · intro index hindex
    by_cases hc : version < 0 ∨ 5 ≤ version
    · rw [hbad hc] at hindex
      exact VersionOutput.noConfusion hindex
    · rw [hgood hc] at hindex
      have hi : index = version := (VersionOutput.versionName.inj hindex).symm
      subst hi
      have h0 : 0 ≤ index := by omega
      have h5 : index.toNat < 5 := by omega
      refine ⟨rfl, h0, by rw [hlen]; exact h5, ?_⟩
      have hcases : index.toNat = 0 ∨ index.toNat = 1 ∨ index.toNat = 2 ∨ index.toNat = 3 ∨
          index.toNat = 4 := by omega
      rw [versionStringAt, if_neg (by omega)]
      rcases hcases with h | h | h | h | h <;> rw [h] <;> exact ⟨_, rfl⟩
  · intro k r self w rest hversion hconn hkey
    simp [Run, hconn, keyboardStage, readStage, hkey, onKey, print, call, hversion, statusLine]

/-- Witness for C13: the code 4 of firmware 3.2 and the out-of-table code 5. -/
theorem showVersion_invalid_iff_out_of_table_witness :
    showVersion 4 = VersionOutput.versionName 4 ∧
    showVersion 5 = VersionOutput.invalidResponse 5 :=
  ⟨(showVersion_invalid_iff_out_of_table 4 (by decide) (by decide)).2.2.1 (by decide),
   (showVersion_invalid_iff_out_of_table 5 (by decide) (by decide)).1.2 (by decide)⟩

/-- The switch takes no further key from the keyboard. -/
theorem onKey_keyboard (k : Constants) (r : Readings) (c : Char) (self : Client)
    (w : Console) : (onKey k r c self w).2.keyboard = w.keyboard := by
  unfold onKey
  by_cases h1 : c = 'm'
  · rw [if_pos h1]
    rfl
  rw [if_neg h1]
  by_cases h2 : c = 'M'
  · rw [if_pos h2]
    rfl
  rw [if_neg h2]
  by_cases h3 : c = 'v'
  · rw [if_pos h3]
    rfl
  rw [if_neg h3]
  by_cases h4 : c = 'V'
  · rw [if_pos h4]
    rfl
  rw [if_neg h4]
  by_cases h5 : c = 'q'
  · rw [if_pos h5]
    rfl
  rw [if_neg h5]
  by_cases h6 : c = 'd'
  · rw [if_pos h6]
  rw [if_neg h6]
  by_cases h7 : c = 's'
  · rw [if_pos h7]
    rfl
  rw [if_neg h7]
  by_cases h8 : c = 'x'
  · rw [if_pos h8]
    rfl
  rw [if_neg h8]
  by_cases h9 : c = 'f'
  · rw [if_pos h9]
    rfl
  rw [if_neg h9]
  by_cases h10 : c = 'r'
  · rw [if_pos h10]
    rfl
  rw [if_neg h10]
  by_cases h11 : c = 'n'
  · rw [if_pos h11]
    rfl
  rw [if_neg h11]

/-- Only the case `d` of the switch writes the debug flag. -/
theorem onKey_debugMode (k : Constants) (r : Readings) (c : Char) (self : Client)
    (w : Console) (hc : c ≠ 'd') : (onKey k r c self w).1.debugMode = self.debugMode := by
  unfold onKey
  by_cases h1 : c = 'm'
  · rw [if_pos h1]
  rw [if_neg h1]
  by_cases h2 : c = 'M'
  · rw [if_pos h2]
  rw [if_neg h2]
  by_cases h3 : c = 'v'
  · rw [if_pos h3]
  rw [if_neg h3]
  by_cases h4 : c = 'V'
  · rw [if_pos h4]
  rw [if_neg h4]
  by_cases h5 : c = 'q'
  · rw [if_pos h5]
  rw [if_neg h5]
  by_cases h6 : c = 'd'
  · exact absurd h6 hc
  rw [if_neg h6]
  by_cases h7 : c = 's'
  · rw [if_pos h7]
  rw [if_neg h7]
  by_cases h8 : c = 'x'
  · rw [if_pos h8]
  rw [if_neg h8]
  by_cases h9 : c = 'f'
  · rw [if_pos h9]
  rw [if_neg h9]
  by_cases h10 : c = 'r'
  · rw [if_pos h10]
  rw [if_neg h10]
  by_cases h11 : c = 'n'
  · rw [if_pos h11]
  rw [if_neg h11]

/-- Only the case `q` of the switch kills the client. -/
theorem onKey_killed (k : Constants) (r : Readings) (c : Char) (self : Client)
    (w : Console) (hc : c ≠ 'q') : (onKey k r c self w).1.killed = self.killed := by
  unfold onKey
  by_cases h1 : c = 'm'
  · rw [if_pos h1]
  rw [if_neg h1]
  by_cases h2 : c = 'M'
  · rw [if_pos h2]
  rw [if_neg h2]
  by_cases h3 : c = 'v'
  · rw [if_pos h3]
  rw [if_neg h3]
  by_cases h4 : c = 'V'
  · rw [if_pos h4]
  rw [if_neg h4]
  by_cases h5 : c = 'q'
  · exact absurd h5 hc
  rw [if_neg h5]
  by_cases h6 : c = 'd'
  · rw [if_pos h6]
  rw [if_neg h6]
  by_cases h7 : c = 's'
  · rw [if_pos h7]
  rw [if_neg h7]
  by_cases h8 : c = 'x'
  · rw [if_pos h8]
  rw [if_neg h8]
  by_cases h9 : c = 'f'
  · rw [if_pos h9]
  rw [if_neg h9]
  by_cases h10 : c = 'r'
  · rw [if_pos h10]
  rw [if_neg h10]
  by_cases h11 : c = 'n'
  · rw [if_pos h11]
  rw [if_neg h11]

/-- C11: with the driver connected and a key waiting, `Run` takes that key and
does what the start-up menu documents for it: `m` joint position move, `M`
Cartesian position move, `v` joint velocity move, `V` Cartesian velocity move
(each with the converted elements of its vector after the extractions: the
number typed where one is stored, the value held before where the extraction
fails), `d` toggles the debug display, `s` stops the motion, `x` gets the version, `f` free drive mode, `r` running mode,
`q` kills the client, `n` disables the motor power; a key that is not in the
menu leaves the client and the console as a cycle without a key does, so it
issues no command and changes no state. -/
theorem Run_key_does_what_the_menu_says (k : Constants) (r : Readings) (self : Client)
    (w : Console) (c : Char) (rest : List Char)
    (hconn : r.connected = true) (hkey : w.keyboard = c :: rest) :
    menuKeys = ['m', 'M', 'v', 'V', 'd', 's', 'x', 'f', 'r', 'q', 'n'] ∧
    (Run k r self w).2.keyboard = rest ∧
    (c = 'm' →
      (Run k r self w).2.calls = w.calls ++ cycleReads ++
        [Call.PositionMoveJoint ((extract self.jtgoal w).1.map (fun x => x * k.cmnPI_180))]) ∧
    (c = 'M' →
      (Run k r self w).2.calls = w.calls ++ cycleReads ++
        [Call.PositionMoveCartesian
          { translation := (extract k.cartPos w).1.map (fun x => x / 1000)
            rotation :=
              if (extract k.cartVec (extract k.cartPos w).2).1.any (fun x => x != 0) then
                Rotation.fromRodriguez (extract k.cartVec (extract k.cartPos w).2).1
              else r.cartpos.rotation }]) ∧
    (c = 'v' →
      (Run k r self w).2.calls = w.calls ++ cycleReads ++
        [Call.VelocityMoveJoint ((extract self.jtvel w).1.map (fun x => x * k.cmnPI_180))]) ∧
    (c = 'V' →
      (Run k r self w).2.calls = w.calls ++ cycleReads ++
        [Call.VelocityMoveCartesian ((extract k.velxyz w).1.map (fun x => x / 1000))
          ((extract k.velrot (extract k.velxyz w).2).1.map (fun x => x * k.cmnPI_180))]) ∧
    (c = 'd' →
      (Run k r self w).1.debugMode = !self.debugMode ∧
      (Run k r self w).2.calls = w.calls ++ cycleReads) ∧
    (c = 's' → (Run k r self w).2.calls = w.calls ++ cycleReads ++ [Call.StopMotion]) ∧
    (c = 'x' →
      (Run k r self w).2.calls = w.calls ++ cycleReads ++ [Call.GetVersion] ∧
      Output.version (showVersion r.version) ∈ (Run k r self w).2.cout) ∧
    (c = 'f' →
      (Run k r self w).2.calls = w.calls ++ cycleReads ++ [Call.SetRobotFreeDriveMode]) ∧
    (c = 'r' →
      (Run k r self w).2.calls = w.calls ++ cycleReads ++ [Call.SetRobotRunningMode]) ∧
    (c = 'q' →
      (Run k r self w).1.killed = true ∧
      (Run k r self w).2.calls = w.calls ++ cycleReads) ∧
    (c = 'n' →
      (Run k r self w).2.calls = w.calls ++ cycleReads ++ [Call.DisableMotorPower]) ∧
    (c ≠ 'd' → (Run k r self w).1.debugMode = self.debugMode) ∧
    (c ≠ 'q' → (Run k r self w).1.killed = self.killed) ∧
    (c ∉ menuKeys →
      (Run k r self w).1 = (Run k r self { w with keyboard := [] }).1 ∧
      (Run k r self w).2 = { (Run k r self { w with keyboard := [] }).2 with keyboard := rest } ∧
      (Run k r self w).1 = (readStage r self w).1 ∧
      (Run k r self w).2.calls = w.calls ++ cycleReads ∧
      (Run k r self w).2.cin = w.cin) := by
  have hmenu : menuKeys = ['m', 'M', 'v', 'V', 'd', 's', 'x', 'f', 'r', 'q', 'n'] := by decide
  have hrun : Run k r self w
      = ((onKey k r c (readStage r self w).1
            { (readStage r self w).2 with keyboard := rest }).1,
         print (statusLine k r (onKey k r c (readStage r self w).1
            { (readStage r self w).2 with keyboard := rest }).1)
           (onKey k r c (readStage r self w).1
            { (readStage r self w).2 with keyboard := rest }).2) := by
    have hk : (readStage r self w).2.keyboard = c :: rest := hkey
    simp only [Run, hconn, if_true, keyboardStage, hk]
  refine ⟨hmenu, ?_, ?_, ?_, ?_, ?_, ?_, ?_, ?_, ?_, ?_, ?_, ?_, ?_, ?_, ?_⟩
  · rw [hrun]
    exact onKey_keyboard k r c _ _
  · intro hc
    subst hc
    rw [hrun]
    simp [onKey, print, call, extract, readStage]
  · intro hc
    subst hc
    rw [hrun]
    simp [onKey, print, call, extract, readStage]
  · intro hc
    subst hc
    rw [hrun]
    simp [onKey, print, call, extract, readStage]
  · intro hc
    subst hc
    rw [hrun]
    simp [onKey, print, call, extract, readStage]
  · intro hc
    subst hc
    rw [hrun]
    simp [onKey, print, call, extract, readStage]
  · intro hc
    subst hc
    rw [hrun]
    simp [onKey, print, call, extract, readStage]
  · intro hc
    subst hc
    rw [hrun]
    simp [onKey, print, call, extract, readStage]
  · intro hc
    subst hc
    rw [hrun]
    simp [onKey, print, call, extract, readStage]
  · intro hc
    subst hc
    rw [hrun]
    simp [onKey, print, call, extract, readStage]
  · intro hc
    subst hc
    rw [hrun]
    simp [onKey, print, call, extract, readStage]
  · intro hc
    subst hc
    rw [hrun]
    simp [onKey, print, call, extract, readStage]
  · intro hc
    rw [hrun]
    exact onKey_debugMode k r c _ _ hc
  · intro hc
    rw [hrun]
    exact onKey_killed k r c _ _ hc
  · intro hc
    rw [hmenu] at hc
    simp only [List.mem_cons, List.mem_singleton, List.not_mem_nil, or_false, not_or] at hc
    obtain ⟨h1, h2, h3, h4, h5, h6, h7, h8, h9, h10, h11⟩ := hc
    have hon : ∀ (s : Client) (v : Console), onKey k r c s v = (s, v) := by
      intro s v
      simp only [onKey, if_neg h1, if_neg h2, if_neg h3, if_neg h4, if_neg h5, if_neg h6,
        if_neg h7, if_neg h8, if_neg h9, if_neg h10, if_neg h11]
    rw [hrun, hon]
    simp [Run, hconn, keyboardStage, readStage, print]

/-- Witness for C11: the sample client, connected, with `s` pressed, and with
the key `z`, which the menu does not list. -/
theorem Run_key_does_what_the_menu_says_witness :
    (Run sampleConstants sampleReadings sampleClient (sampleConsole ['s'])).2.calls
      = cycleReads ++ [Call.StopMotion] ∧
    (Run sampleConstants sampleReadings sampleClient (sampleConsole ['z'])).2.calls
      = cycleReads :=
  ⟨(Run_key_does_what_the_menu_says sampleConstants sampleReadings sampleClient
      (sampleConsole ['s']) 's' [] rfl rfl).2.2.2.2.2.2.2.1 rfl,
   ((Run_key_does_what_the_menu_says sampleConstants sampleReadings sampleClient
      (sampleConsole ['z']) 'z' [] rfl rfl).2.2.2.2.2.2.2.2.2.2.2.2.2.2.2
      (by decide)).2.2.2.1⟩

end UniversalRobotClient
